import Mathlib

/-!
Verification development for the rust-roguelike repository (src/main.rs).

The Rust program is shallowly embedded: each Rust function used by the
claims is translated into a Lean definition of the same name. Mutation is
modelled by explicit state passing (a Rust `fn f(&mut self, g: &mut Game)`
becomes a Lean function returning the updated values), machine integers
`i32`/`u32` are modelled as `Int`/`Nat` (all quantities involved stay far
from the 2^31 wrap boundary), and code that can panic (slice indexing,
`unwrap`, `assert!`) returns `Option`, with `none` standing for a panic.
Message strings pushed into `game.messages` are modelled by an inductive
`Message` carrying the formatted arguments; the textual formatting and the
message colors are presentation-only and are not modelled.
-/

/-- Tile from main.rs: a map cell. -/
structure Tile where
  blocked : Bool
  block_sight : Bool
  explored : Bool
deriving DecidableEq, Repr

def Tile.empty : Tile := { blocked := false, block_sight := false, explored := false }

def Tile.wall : Tile := { blocked := true, block_sight := true, explored := false }

/-- Rect from main.rs: an axis-aligned room footprint. -/
structure Rect where
  x1 : Int
  y1 : Int
  x2 : Int
  y2 : Int
deriving DecidableEq, Repr

def Rect.new (x y w h : Int) : Rect := { x1 := x, y1 := y, x2 := x + w, y2 := y + h }

def Rect.center (r : Rect) : Int × Int := ((r.x1 + r.x2) / 2, (r.y1 + r.y2) / 2)

def Rect.intersects_with (r other : Rect) : Bool :=
  decide (r.x1 ≤ other.x2) && decide (r.x2 ≥ other.x1) &&
  decide (r.y1 ≤ other.y2) && decide (r.y2 ≥ other.y1)

/-- Color constants from tcod that the embedded code writes into objects.
Only identity matters, so colors are an enumeration. -/
inductive Color where
  | white
  | sky
  | violet
  | darkRed
  | desaturatedCrimson
  | darkGreen
  | brass
  | lightYellow
  | lightAzure
  | orange
deriving DecidableEq, Repr

/-- DeathCallback from main.rs. -/
inductive DeathCallback where
  | player
  | monster
deriving DecidableEq, Repr

/-- Fighter from main.rs: combat-related properties. -/
structure Fighter where
  base_max_hp : Int
  hp : Int
  base_defense : Int
  base_power : Int
  xp : Int
  on_death : DeathCallback
deriving DecidableEq, Repr

/-- Slot from main.rs: an equipment attachment point. -/
inductive Slot where
  | leftHand
  | rightHand
  | head
  | back
deriving DecidableEq, Repr

/-- Equipment from main.rs: an object that can be equipped, yielding bonuses. -/
structure Equipment where
  slot : Slot
  equipped : Bool
  power_bonus : Int
  defense_bonus : Int
  max_hp_bonus : Int
  range : Int
  damage : Int
  charges : Int
deriving DecidableEq, Repr

/-- Item from main.rs. -/
inductive Item where
  | heal
  | lightning
  | confuse
  | fireball
  | sword
  | shield
  | helmet
  | bow
deriving DecidableEq, Repr

/-- AI from main.rs. The `range` parameter of `Ranged` is an `f32` in the
source; it is carried as a rational number here because no embedded code
path performs floating-point arithmetic on it. -/
inductive AI where
  | basic
  | ranged (range : Rat)
  | confused (previous_ai : AI) (num_turns : Int)
deriving DecidableEq, Repr

/-- UseResult from main.rs. -/
inductive UseResult where
  | usedUp
  | cancelled
  | usedAndKept
  | useCharge
deriving DecidableEq, Repr

/-- Message models one `game.messages.add(...)` call site together with the
formatted arguments; text layout and colors are presentation-only. -/
inductive Message where
  | attackHit (attacker target : String) (damage : Int)
  | attackNoEffect (attacker target : String)
  | monsterDead (name : String) (xp : Int)
  | youDied
  | inventoryFull (name : String)
  | pickedUp (name : String)
  | equippedMsg (name : String) (slot : Slot)
  | dequippedMsg (name : String) (slot : Slot)
  | cantEquipNotItem (name : String)
  | cantEquipNotEquipment (name : String)
  | cantDequipNotItem (name : String)
  | cantDequipNotEquipment (name : String)
  | noLongerConfused (name : String)
deriving DecidableEq, Repr

/-- Object from main.rs: one roster entity. -/
structure Object where
  x : Int
  y : Int
  glyph : Char
  color : Color
  name : String
  blocks : Bool
  alive : Bool
  fighter : Option Fighter
  ai : Option AI
  item : Option Item
  always_visible : Bool
  level : Int
  equipment : Option Equipment
deriving DecidableEq, Repr

/-- Object::new from main.rs. -/
def Object.new (x y : Int) (glyph : Char) (color : Color) (name : String)
    (blocks : Bool) : Object :=
  { x := x, y := y, glyph := glyph, color := color, name := name, blocks := blocks,
    alive := false, fighter := none, ai := none, item := none,
    always_visible := false, level := 1, equipment := none }

def Object.pos (self : Object) : Int × Int := (self.x, self.y)

def Object.set_pos (self : Object) (x y : Int) : Object := { self with x := x, y := y }

/-- Map from main.rs is `Vec<Vec<Tile>>`, an 80 x 43 grid indexed `[x][y]`.
It is modelled by its indexing function; all reads and writes performed by
the embedded code stay inside the 80 x 43 bounds, where the two views
coincide (an out-of-bounds `Vec` index would panic in Rust; in the model
every out-of-grid cell just stays a wall, which no embedded path reads). -/
abbrev GameMap := Int → Int → Tile

/-- Game from main.rs. -/
structure Game where
  map : GameMap
  messages : List Message
  inventory : List Object
  dungeon_level : Nat

/-- Messages::add from main.rs (the color argument is presentation-only). -/
def addMsg (game : Game) (m : Message) : Game :=
  { game with messages := game.messages ++ [m] }

/-- Object::get_all_equipped from main.rs: for the player, every currently
equipped item in the game inventory; other objects have no equipment. The
source filters on `equipped` and then `unwrap`s the equipment, which is
total on the filtered list; this is written as a single `filterMap`. -/
def Object.get_all_equipped (self : Object) (game : Game) : List Equipment :=
  if self.name = "player" then
    game.inventory.filterMap (fun item =>
      match item.equipment with
      | some e => if e.equipped then some e else none
      | none => none)
  else
    []

/-- Object::power from main.rs. `game.dungeon_level as i32 / 4` is the
Rust u32-to-i32 cast followed by i32 division; dungeon levels are small,
so the cast is the plain coercion and `/` agrees with Rust division. -/
def Object.power (self : Object) (game : Game) : Int :=
  let base_power := (self.fighter.map (fun f => f.base_power)).getD 0
  let bonus : Int := ((self.get_all_equipped game).map (fun e => e.power_bonus)).sum
  let bonus := if self.name ≠ "player" then bonus + (game.dungeon_level : Int) / 4 else bonus
  base_power + bonus

/-- Object::defense from main.rs. -/
def Object.defense (self : Object) (game : Game) : Int :=
  let base_defense := (self.fighter.map (fun f => f.base_defense)).getD 0
  let bonus : Int := ((self.get_all_equipped game).map (fun e => e.defense_bonus)).sum
  base_defense + bonus

/-- Object::max_hp from main.rs. -/
def Object.max_hp (self : Object) (game : Game) : Int :=
  let base_max_hp := (self.fighter.map (fun f => f.base_max_hp)).getD 0
  let bonus : Int := ((self.get_all_equipped game).map (fun e => e.max_hp_bonus)).sum
  base_max_hp + bonus

/-- Object::heal from main.rs. -/
def Object.heal (self : Object) (amount : Int) (game : Game) : Object :=
  let maxHp := self.max_hp game
  match self.fighter with
  | some fighter =>
      let hp := fighter.hp + amount
      let hp := if hp > maxHp then maxHp else hp
      { self with fighter := some { fighter with hp := hp } }
  | none => self

/-- player_death from main.rs. -/
def player_death (player : Object) (game : Game) : Object × Game :=
  ({ player with glyph := '%', color := Color.darkRed }, addMsg game Message.youDied)

/-- monster_death from main.rs. The `monster.fighter.unwrap()` in the
message is a panic when the fighter is absent, hence the `Option` result. -/
def monster_death (monster : Object) (game : Game) : Option (Object × Game) :=
  match monster.fighter with
  | none => none
  | some f =>
      let game := addMsg game (Message.monsterDead monster.name f.xp)
      some ({ monster with
                glyph := '%',
                color := Color.darkRed,
                blocks := false,
                fighter := none,
                ai := none,
                name := "remains of " ++ monster.name }, game)

/-- DeathCallback::callback from main.rs. -/
def DeathCallback.callback (self : DeathCallback) (object : Object) (game : Game) :
    Option (Object × Game) :=
  match self with
  | DeathCallback.player => some (player_death object game)
  | DeathCallback.monster => monster_death object game

/-- Object::take_damage from main.rs: apply damage, then run the death
callback when hp has dropped to 0 or below, returning the victim's xp in
that case. The second `if let Some(fighter)` in the source reads a copy of
the possibly updated fighter, which the match below reproduces. -/
def Object.take_damage (self : Object) (damage : Int) (game : Game) :
    Option (Object × Game × Option Int) :=
  let self :=
    match self.fighter with
    | some fighter =>
        if damage > 0 then { self with fighter := some { fighter with hp := fighter.hp - damage } }
        else self
    | none => self
  match self.fighter with
  | some fighter =>
      if fighter.hp ≤ 0 then
        let self := { self with alive := false }
        match fighter.on_death.callback self game with
        | some (self, game) => some (self, game, some fighter.xp)
        | none => none
      else
        some (self, game, none)
  | none => some (self, game, none)

/-- Object::attack from main.rs. The `self.fighter.as_mut().unwrap()` on
the xp award panics when the attacker has no fighter, hence `none` there. -/
def Object.attack (self : Object) (target : Object) (game : Game) :
    Option (Object × Object × Game) :=
  let damage := self.power game - target.defense game
  if damage > 0 then
    let game := addMsg game (Message.attackHit self.name target.name damage)
    match target.take_damage damage game with
    | none => none
    | some (target, game, some xp) =>
        match self.fighter with
        | some f => some ({ self with fighter := some { f with xp := f.xp + xp } }, target, game)
        | none => none
    | some (target, game, none) => some (self, target, game)
  else
    some (self, target, addMsg game (Message.attackNoEffect self.name target.name))

/-- Object::equip from main.rs (the Rust messages format `self` with
Debug; only the name is carried here). -/
def Object.equip (self : Object) (messages : List Message) : Object × List Message :=
  if self.item.isNone then
    (self, messages ++ [Message.cantEquipNotItem self.name])
  else
    match self.equipment with
    | some equipment =>
        if ¬equipment.equipped then
          ({ self with equipment := some { equipment with equipped := true } },
           messages ++ [Message.equippedMsg self.name equipment.slot])
        else
          (self, messages)
    | none => (self, messages ++ [Message.cantEquipNotEquipment self.name])

/-- Object::dequip from main.rs. -/
def Object.dequip (self : Object) (messages : List Message) : Object × List Message :=
  if self.item.isNone then
    (self, messages ++ [Message.cantDequipNotItem self.name])
  else
    match self.equipment with
    | some equipment =>
        if equipment.equipped then
          ({ self with equipment := some { equipment with equipped := false } },
           messages ++ [Message.dequippedMsg self.name equipment.slot])
        else
          (self, messages)
    | none => (self, messages ++ [Message.cantDequipNotEquipment self.name])

/-- get_equipped_in_slot from main.rs: index of the first inventory object
whose equipment is equipped in the given slot. -/
def get_equipped_in_slot (slot : Slot) (inventory : List Object) : Option Nat :=
  inventory.findIdx? (fun item =>
    (item.equipment.map (fun e => e.equipped && decide (e.slot = slot))).getD false)

/-- mut_two from main.rs: mutably borrow two separate elements of a slice.
The Rust function performs no writes, so it is modelled as returning the
two referenced elements; `none` models the panics (`assert!` on equal
indices, `split_at_mut` past the length, slice indexing out of range). -/
def mut_two {α : Type} (first_index second_index : Nat) (items : List α) :
    Option (α × α) :=
  if first_index = second_index then none
  else
    let split_at_index := max first_index second_index
    if split_at_index ≤ items.length then
      let first_slice := items.take split_at_index
      let second_slice := items.drop split_at_index
      if first_index < second_index then
        match first_slice.get? first_index, second_slice.get? 0 with
        | some a, some b => some (a, b)
        | _, _ => none
      else
        match second_slice.get? 0, first_slice.get? second_index with
        | some a, some b => some (a, b)
        | _, _ => none
    else none

/-- Vec::swap_remove used by pick_item_up: remove index `i`, moving the
last element into its place; `none` models the panic on a bad index. -/
def swapRemove {α : Type} (items : List α) (i : Nat) : Option (α × List α) :=
  match items.get? i with
  | none => none
  | some a =>
      match items.getLast? with
      | none => none
      | some last => some (a, (items.set i last).dropLast)

/-- Models the statement `game.inventory[index].equip(&mut game.messages)`
(at every call site the index is in range, so the `none` branch of the
lookup is inert). -/
def equip_at (game : Game) (index : Nat) : Game :=
  match game.inventory.get? index with
  | none => game
  | some o =>
      let r := o.equip game.messages
      { game with inventory := game.inventory.set index r.1, messages := r.2 }

/-- Models the statement `game.inventory[i].dequip(&mut game.messages)`
(at every call site the index is in range). -/
def dequip_at (game : Game) (index : Nat) : Game :=
  match game.inventory.get? index with
  | none => game
  | some o =>
      let r := o.dequip game.messages
      { game with inventory := game.inventory.set index r.1, messages := r.2 }

/-- pick_item_up from main.rs: add to player inventory and remove from the
map roster, auto-equipping when the item's slot is unused. -/
def pick_item_up (object_id : Nat) (game : Game) (objects : List Object) :
    Option (Game × List Object) :=
  if 26 ≤ game.inventory.length then
    match objects.get? object_id with
    | none => none
    | some o => some (addMsg game (Message.inventoryFull o.name), objects)
  else
    match swapRemove objects object_id with
    | none => none
    | some (item, objects) =>
        let game := addMsg game (Message.pickedUp item.name)
        let index := game.inventory.length
        let slot := item.equipment.map (fun e => e.slot)
        let game := { game with inventory := game.inventory ++ [item] }
        match slot with
        | some slot =>
            if (get_equipped_in_slot slot game.inventory).isNone then
              some (equip_at game index, objects)
            else
              some (game, objects)
        | none => some (game, objects)

/-- toggle_equipment from main.rs: dequip whatever occupies the slot
first, then toggle the chosen item. `none` models the indexing panic. -/
def toggle_equipment (inventory_id : Nat) (game : Game) : Option (Game × UseResult) :=
  match game.inventory.get? inventory_id with
  | none => none
  | some obj =>
      match obj.equipment with
      | none => some (game, UseResult.cancelled)
      | some equipment =>
          let game :=
            match get_equipped_in_slot equipment.slot game.inventory with
            | some current => dequip_at game current
            | none => game
          let game :=
            if equipment.equipped then dequip_at game inventory_id
            else equip_at game inventory_id
          some (game, UseResult.usedAndKept)

/-- is_blocked from main.rs. -/
def is_blocked (x y : Int) (map : GameMap) (objects : List Object) : Bool :=
  if (map x y).blocked then true
  else objects.any (fun object => object.blocks && decide (object.pos = (x, y)))

/-- move_by from main.rs. -/
def move_by (id : Nat) (dx dy : Int) (map : GameMap) (objects : List Object) :
    Option (List Object) :=
  match objects.get? id with
  | none => none
  | some o =>
      if ¬ is_blocked (o.x + dx) (o.y + dy) map objects then
        some (objects.set id (o.set_pos (o.x + dx) (o.y + dy)))
      else
        some objects

/-- ai_confused from main.rs. The two `gen_range(-1, 2)` rng draws are the
oracle inputs `dx`, `dy` (a faithful draw satisfies -1 ≤ d < 2). -/
def ai_confused (monster_id : Nat) (game : Game) (objects : List Object)
    (previous_ai : AI) (num_turns : Int) (dx dy : Int) :
    Option (List Object × Game × AI) :=
  if num_turns > 0 then
    match move_by monster_id dx dy game.map objects with
    | none => none
    | some objects => some (objects, game, AI.confused previous_ai (num_turns - 1))
  else
    match objects.get? monster_id with
    | none => none
    | some o => some (objects, addMsg game (Message.noLongerConfused o.name), previous_ai)

/-- Models the final `objects[monster_id].ai = Some(new_ai)` assignment of
ai_take_turn (the index is always in range at the call site). -/
def set_ai (objects : List Object) (id : Nat) (newAi : AI) : List Object :=
  match objects.get? id with
  | none => objects
  | some o => objects.set id { o with ai := some newAi }

/-- ai_take_turn from main.rs: take the monster's AI slot, dispatch on the
variant, and store the returned next AI. The Basic and Ranged branches call
ai_basic / ai_ranged, whose bodies depend on the external FOV oracle and on
f32 distance arithmetic; they are supplied here as the function parameters
`basicF` and `rangedF`. The Confused branch is `ai_confused` above, with
`dx`, `dy` the rng oracle draws it consumes. -/
def ai_take_turn
    (basicF : Nat → Game → List Object → Option (List Object × Game × AI))
    (rangedF : Rat → Nat → Game → List Object → Option (List Object × Game × AI))
    (monster_id : Nat) (game : Game) (objects : List Object) (dx dy : Int) :
    Option (List Object × Game) :=
  match objects.get? monster_id with
  | none => none
  | some o =>
      match o.ai with
      | none => some (objects, game)
      | some ai =>
          let objects := objects.set monster_id { o with ai := none }
          let result :=
            match ai with
            | AI.basic => basicF monster_id game objects
            | AI.ranged range => rangedF range monster_id game objects
            | AI.confused previous_ai num_turns =>
                ai_confused monster_id game objects previous_ai num_turns dx dy
          match result with
          | none => none
          | some (objects, game, new_ai) => some (set_ai objects monster_id new_ai, game)

/-- The monster phase of play_game (main.rs): after a turn-taking player
action, each roster index whose object has a present AI takes a turn; an
object whose `ai` is `None` is skipped. -/
def monster_phase_guard (objects : List Object) (id : Nat) : Bool :=
  ((objects.get? id).map (fun o => o.ai.isSome)).getD false

/-- Pointwise write into the modelled tile grid (one `map[x][y] = t`
assignment). -/
def setTile (m : GameMap) (x y : Int) (t : Tile) : GameMap :=
  fun a b => if a = x ∧ b = y then t else m a b

/-- The integer interval [lo, hi) as a list, modelling a Rust `lo..hi`
loop range. -/
def intRange (lo hi : Int) : List Int :=
  (List.range (hi - lo).toNat).map (fun i => lo + Int.ofNat i)

/-- create_room from main.rs: make every interior tile of the rectangle
passable. -/
def create_room (room : Rect) (map : GameMap) : GameMap :=
  (intRange (room.x1 + 1) room.x2).foldl
    (fun map x =>
      (intRange (room.y1 + 1) room.y2).foldl (fun map y => setTile map x y Tile.empty) map)
    map

/-- create_h_tunnel from main.rs. -/
def create_h_tunnel (x1 x2 y : Int) (map : GameMap) : GameMap :=
  (intRange (min x1 x2) (max x1 x2 + 1)).foldl (fun map x => setTile map x y Tile.empty) map

/-- create_v_tunnel from main.rs. -/
def create_v_tunnel (y1 y2 x : Int) (map : GameMap) : GameMap :=
  (intRange (min y1 y2) (max y1 y2 + 1)).foldl (fun map y => setTile map x y Tile.empty) map

/-- One attempt's worth of rng draws consumed by the room loop of
make_map: `w`, `h` from `gen_range(ROOM_MIN_SIZE, ROOM_MAX_SIZE + 1)`,
`x`, `y` from `gen_range(0, MAP_WIDTH - w)` / `gen_range(0, MAP_HEIGHT - h)`,
and `coin` from `rand::random()` choosing the tunnel bend order (drawn
per accepted non-first room in the source; carrying one per attempt and
quantifying over all oracles subsumes that). -/
structure RoomDraw where
  w : Int
  h : Int
  x : Int
  y : Int
  coin : Bool
deriving DecidableEq, Repr

/-- The ranges the rng contract of make_map guarantees for one attempt:
ROOM_MIN_SIZE = 6, ROOM_MAX_SIZE = 10, MAP_WIDTH = 80, MAP_HEIGHT = 43. -/
def RoomDraw.ok (d : RoomDraw) : Prop :=
  6 ≤ d.w ∧ d.w ≤ 10 ∧ 6 ≤ d.h ∧ d.h ≤ 10 ∧
  0 ≤ d.x ∧ d.x < 80 - d.w ∧ 0 ≤ d.y ∧ d.y < 43 - d.h

instance (d : RoomDraw) : Decidable d.ok := by
  unfold RoomDraw.ok
  infer_instance

/-- One iteration of the room-placement loop of make_map: reject the room
if it intersects an accepted one, otherwise carve it and tunnel to the
previous room's center (the first accepted room receives the player
instead; place_objects only mutates the roster, never the map). -/
def make_map_step (acc : GameMap × List Rect) (d : RoomDraw) : GameMap × List Rect :=
  let map := acc.1
  let rooms := acc.2
  let new_room := Rect.new d.x d.y d.w d.h
  let failed := rooms.any (fun other_room => new_room.intersects_with other_room)
  if failed then
    (map, rooms)
  else
    let map := create_room new_room map
    match rooms.getLast? with
    | none => (map, rooms ++ [new_room])
    | some prev =>
        let prev_x := prev.center.1
        let prev_y := prev.center.2
        let new_x := new_room.center.1
        let new_y := new_room.center.2
        let map :=
          if d.coin then
            create_v_tunnel prev_y new_y new_x (create_h_tunnel prev_x new_x prev_y map)
          else
            create_h_tunnel prev_x new_x new_y (create_v_tunnel prev_y new_y prev_x map)
        (map, rooms ++ [new_room])

/-- make_map from main.rs, returning the tile grid and the accepted rooms
in acceptance order. The grid starts all wall; after the room loop the
fixed structure (two extra rooms and a hallway) is always carved. The
stairs object and place_objects only mutate the roster and are not part
of the grid. The source makes MAX_ROOMS = 30 attempts; `draws` is the
per-attempt rng oracle (length 30 in the program, any length here). -/
def make_map (draws : List RoomDraw) : GameMap × List Rect :=
  let init : GameMap := fun _ _ => Tile.wall
  let acc := draws.foldl make_map_step (init, [])
  let map := create_room (Rect.new 20 15 10 15) acc.1
  let map := create_room (Rect.new 50 15 10 15) map
  let map := create_h_tunnel 25 55 23 map
  (map, acc.2)

/-- Player spawn point: the center of the first accepted room
(`objects[PLAYER].set_pos(new_x, new_y)` when `rooms.is_empty()`). The
empty case is unreachable because the first placement attempt never
fails. -/
def player_spawn (rooms : List Rect) : Int × Int :=
  match rooms with
  | [] => (0, 0)
  | r :: _ => r.center

/-- The tile at `p` is carved (not blocked). -/
def passable (m : GameMap) (p : Int × Int) : Prop := (m p.1 p.2).blocked = false

instance (m : GameMap) (p : Int × Int) : Decidable (passable m p) := by
  unfold passable
  infer_instance

/-- One game step between distinct cells: both coordinates change by at
most 1 (the 8-directional moves of move_by / move_towards). -/
def adjacent (p q : Int × Int) : Prop :=
  p ≠ q ∧ (q.1 - p.1).natAbs ≤ 1 ∧ (q.2 - p.2).natAbs ≤ 1

/-- The cell `q` can be reached from `src` by steps through passable
cells (the spec's "reachable through unblocked tiles"). -/
inductive Reachable (m : GameMap) (src : Int × Int) : Int × Int → Prop where
  | refl : passable m src → Reachable m src src
  | step {p q : Int × Int} : Reachable m src p → adjacent p q → passable m q →
      Reachable m src q

/-! ### Spec-side stat formulas (for the refinement claim C1) -/

/-- Effective power as the specification words it: base_power plus the sum
of the equipped items' power_bonus, plus a dungeon-level/4 bonus for
non-player entities. -/
def power_spec (o : Object) (game : Game) : Int :=
  (o.fighter.map (fun f => f.base_power)).getD 0 +
    ((o.get_all_equipped game).map (fun e => e.power_bonus)).sum +
    (if o.name ≠ "player" then (game.dungeon_level : Int) / 4 else 0)

/-- Effective defense as the specification words it (no level bonus). -/
def defense_spec (o : Object) (game : Game) : Int :=
  (o.fighter.map (fun f => f.base_defense)).getD 0 +
    ((o.get_all_equipped game).map (fun e => e.defense_bonus)).sum

/-- Effective max hp as the specification words it (no level bonus). -/
def max_hp_spec (o : Object) (game : Game) : Int :=
  (o.fighter.map (fun f => f.base_max_hp)).getD 0 +
    ((o.get_all_equipped game).map (fun e => e.max_hp_bonus)).sum

/-- C1: for every entity and game state, effective power equals base_power
plus the sum of equipped items' power_bonus plus a level/4 bonus (the
game's dungeon level, per the source comment) for non-player entities;
effective defense and max_hp are computed analogously from
base_defense/defense_bonus and base_max_hp/max_hp_bonus without the level
bonus. -/
theorem claim_C1_effective_stats (o : Object) (game : Game) :
    o.power game = power_spec o game ∧
    o.defense game = defense_spec o game ∧
    o.max_hp game = max_hp_spec o game := by
  refine ⟨?_, rfl, rfl⟩
  unfold Object.power power_spec
  by_cases h : o.name = "player" <;> simp [h] <;> try ring

/-- A minimal all-wall grid used by the concrete instances below. -/
def wallGrid : GameMap := fun _ _ => Tile.wall

/-- A minimal game state used by the concrete instances below. -/
def emptyGame : Game :=
  { map := wallGrid, messages := [], inventory := [], dungeon_level := 1 }

/-- C5: mut_two panics (modelled as `none`) exactly when the indices are
equal or one of them is out of range; otherwise it yields the two distinct
elements items[i] and items[j], in argument order. The Rust function
performs no writes on the slice, which the embedding reflects by
construction. -/
theorem claim_C5_mut_two {α : Type} (i j : Nat) (items : List α) :
    (mut_two i j items = none ↔ i = j ∨ items.length ≤ i ∨ items.length ≤ j) ∧
    ∀ (hij : i ≠ j) (hi : i < items.length) (hj : j < items.length),
      mut_two i j items = some (items.get ⟨i, hi⟩, items.get ⟨j, hj⟩) := by
  constructor
  · unfold mut_two
    rcases eq_or_ne i j with hij | hij
    · simp [hij]
    · simp only [if_neg hij]
      by_cases hmax : max i j ≤ items.length
      · simp only [if_pos hmax, List.get?_eq_getElem?, List.getElem?_take,
          List.getElem?_drop]
        by_cases hlt : i < j
        · have hmax2 : max i j = j := by omega
          simp only [hmax2] at hmax ⊢
          simp only [if_pos hlt]
          rcases Nat.lt_or_ge j items.length with hj | hj
          · rw [List.getElem?_eq_getElem (by omega : i < items.length),
              List.getElem?_eq_getElem (by omega : j + 0 < items.length)]
            simp only [reduceCtorEq, false_iff]
            omega
          · rw [List.getElem?_eq_none (by omega : items.length ≤ j + 0)]
            cases hv : items[i]? <;> simp <;> omega
        · have hji : j < i := by omega
          have hmax2 : max i j = i := by omega
          simp only [hmax2] at hmax ⊢
          simp only [if_neg hlt, if_pos hji]
          rcases Nat.lt_or_ge i items.length with hi | hi
          · rw [List.getElem?_eq_getElem (by omega : i + 0 < items.length),
              List.getElem?_eq_getElem (by omega : j < items.length)]
            simp only [reduceCtorEq, false_iff]
            omega
          · rw [List.getElem?_eq_none (by omega : items.length ≤ i + 0)]
            simp
            omega
      · simp only [if_neg hmax]
        simp only [true_iff]
        omega
  · intro hij hi hj
    unfold mut_two
    simp only [if_neg hij]
    by_cases hlt : i < j
    · have hmax2 : max i j = j := by omega
      simp only [hmax2, if_pos (by omega : j ≤ items.length), if_pos hlt,
        List.get?_eq_getElem?, List.getElem?_take, List.getElem?_drop]
      rw [List.getElem?_eq_getElem hi, List.getElem?_eq_getElem (by omega : j + 0 < items.length)]
      simp [List.get_eq_getElem]
    · have hji : j < i := by omega
      have hmax2 : max i j = i := by omega
      simp only [hmax2, if_pos (by omega : i ≤ items.length), if_neg hlt,
        List.get?_eq_getElem?, List.getElem?_take, List.getElem?_drop]
      rw [List.getElem?_eq_getElem (by omega : i + 0 < items.length)]
      simp [List.get_eq_getElem, if_pos hji, List.getElem?_eq_getElem hj]

/-- Witness for C5 at a concrete slice. -/
theorem claim_C5_mut_two_witness :
    (0 : Nat) ≠ 2 ∧ (0 : Nat) < 3 ∧ (2 : Nat) < 3 ∧
    mut_two 0 2 [10, 20, 30] = some (10, 30) := by
  refine ⟨by decide, by decide, by decide, ?_⟩
  exact (claim_C5_mut_two 0 2 [10, 20, 30]).2 (by decide) (by decide) (by decide)

/-- C6: when the attacker's effective power is at most the defender's
effective defense, attack appends the no-effect message and returns with
attacker and defender both unchanged (in particular the defender's hp and
alive flag), completing normally as an action. -/
theorem claim_C6_no_effect_attack (self target : Object) (game : Game)
    (h : self.power game ≤ target.defense game) :
    self.attack target game =
      some (self, target, addMsg game (Message.attackNoEffect self.name target.name)) := by
  unfold Object.attack
  have hd : ¬ (self.power game - target.defense game > 0) := by omega
  simp [hd]

/-- A concrete non-player attacker with base_power 1. -/
def wAttacker : Object :=
  { Object.new 0 0 'a' Color.white "attacker" true with
      alive := true,
      fighter := some { base_max_hp := 10, hp := 10, base_defense := 0, base_power := 1,
                        xp := 0, on_death := DeathCallback.monster } }

/-- A concrete defender with base_defense 5. -/
def wDefender : Object :=
  { Object.new 1 0 'd' Color.white "defender" true with
      alive := true,
      fighter := some { base_max_hp := 10, hp := 10, base_defense := 5, base_power := 1,
                        xp := 7, on_death := DeathCallback.monster } }

/-- Witness for C6 at a concrete attacker/defender pair. -/
theorem claim_C6_no_effect_attack_witness :
    wAttacker.power emptyGame ≤ wDefender.defense emptyGame ∧
    wAttacker.attack wDefender emptyGame =
      some (wAttacker, wDefender,
        addMsg emptyGame (Message.attackNoEffect wAttacker.name wDefender.name)) :=
  ⟨by decide, claim_C6_no_effect_attack wAttacker wDefender emptyGame (by decide)⟩

/-- C7: when the inventory already holds 26 items, pick_item_up only
appends the inventory-full message: the inventory and the map roster are
returned unchanged. -/
theorem claim_C7_inventory_full (object_id : Nat) (game : Game) (objects : List Object)
    (o : Object) (ho : objects.get? object_id = some o)
    (hfull : game.inventory.length = 26) :
    pick_item_up object_id game objects =
      some (addMsg game (Message.inventoryFull o.name), objects) ∧
    (addMsg game (Message.inventoryFull o.name)).inventory = game.inventory ∧
    (addMsg game (Message.inventoryFull o.name)).messages =
      game.messages ++ [Message.inventoryFull o.name] := by
  refine ⟨?_, rfl, rfl⟩
  unfold pick_item_up
  rw [hfull]
  rw [List.get?_eq_getElem?] at ho
  simp [ho]

/-- A concrete potion-like pickup target. -/
def wPotion : Object :=
  { Object.new 3 4 '!' Color.violet "healing potion" false with item := some Item.heal }

/-- A concrete game whose inventory already holds 26 items. -/
def wFullGame : Game := { emptyGame with inventory := List.replicate 26 wPotion }

/-- Witness for C7 at a concrete full inventory. -/
theorem claim_C7_inventory_full_witness :
    ([wPotion].get? 0 = some wPotion) ∧ wFullGame.inventory.length = 26 ∧
    pick_item_up 0 wFullGame [wPotion] =
      some (addMsg wFullGame (Message.inventoryFull wPotion.name), [wPotion]) :=
  ⟨by decide, by decide,
    (claim_C7_inventory_full 0 wFullGame [wPotion] wPotion (by decide) (by decide)).1⟩

/-- C10: for an entity with a fighter, heal sets hp to
min(hp + amount, max_hp(game)), so the healed hp never exceeds the
equipment-adjusted max hp; for an entity without a fighter, heal changes
nothing. -/
theorem claim_C10_heal_clamps (o : Object) (f : Fighter) (amount : Int) (game : Game) :
    (o.fighter = some f →
      o.heal amount game =
        { o with fighter := some { f with hp := min (f.hp + amount) (o.max_hp game) } } ∧
      min (f.hp + amount) (o.max_hp game) ≤ (o.heal amount game).max_hp game) ∧
    (o.fighter = none → o.heal amount game = o) := by
  constructor
  · intro h
    have heq : o.heal amount game =
        { o with fighter := some { f with hp := min (f.hp + amount) (o.max_hp game) } } := by
      unfold Object.heal
      rw [h]
      dsimp only
      rcases le_or_lt (f.hp + amount) (o.max_hp game) with hle | hgt
      · rw [if_neg (by omega), min_eq_left hle]
      · rw [if_pos (by omega), min_eq_right (by omega)]
    refine ⟨heq, ?_⟩
    rw [heq]
    have hmax : ({ o with fighter := some { f with hp := min (f.hp + amount) (o.max_hp game) } } : Object).max_hp game = o.max_hp game := by
      unfold Object.max_hp
      rw [h]
      rfl
    rw [hmax]
    exact min_le_right _ _
  · intro h
    unfold Object.heal
    rw [h]

/-- A concrete wounded player. -/
def wPlayer : Object :=
  { Object.new 2 2 '@' Color.white "player" true with
      alive := true,
      fighter := some { base_max_hp := 100, hp := 80, base_defense := 1, base_power := 2,
                        xp := 0, on_death := DeathCallback.player } }

/-- Witness for C10 at a concrete heal that overshoots max hp. -/
theorem claim_C10_heal_clamps_witness :
    wPlayer.fighter = some { base_max_hp := 100, hp := 80, base_defense := 1,
                             base_power := 2, xp := 0, on_death := DeathCallback.player } ∧
    wPlayer.heal 40 emptyGame =
      { wPlayer with
          fighter := some { base_max_hp := 100, hp := min (80 + 40) (wPlayer.max_hp emptyGame),
                            base_defense := 1, base_power := 2, xp := 0,
                            on_death := DeathCallback.player } } :=
  ⟨rfl, ((claim_C10_heal_clamps wPlayer _ 40 emptyGame).1 rfl).1⟩

/-- The corpse monster_death leaves behind. -/
def monster_corpse (o : Object) : Object :=
  { o with
      alive := false,
      glyph := '%',
      color := Color.darkRed,
      blocks := false,
      fighter := none,
      ai := none,
      name := "remains of " ++ o.name }

/-- A lethal take_damage on a victim with the Monster death callback
produces exactly the corpse, the death message, and the victim's xp. -/
theorem take_damage_monster_kill (o : Object) (f : Fighter) (d : Int) (game : Game)
    (hf : o.fighter = some f) (hmon : f.on_death = DeathCallback.monster)
    (hkill : (if 0 < d then f.hp - d else f.hp) ≤ 0) :
    o.take_damage d game =
      some (monster_corpse o, addMsg game (Message.monsterDead o.name f.xp), some f.xp) := by
  unfold Object.take_damage
  rw [hf]
  dsimp only
  by_cases hd : d > 0
  · rw [if_pos hd] at hkill ⊢
    dsimp only
    rw [if_pos hkill]
    rw [hmon]
    unfold DeathCallback.callback monster_death
    dsimp only
    rfl
  · rw [if_neg hd] at hkill ⊢
    rw [hf]
    dsimp only
    rw [if_pos hkill]
    rw [hmon]
    unfold DeathCallback.callback monster_death
    dsimp only
    rfl

/-- C2 (amended to victims whose death callback is Monster): a lethal
take_damage triggers the death transition and yields the victim's xp; the
resulting corpse has no fighter, so any further take_damage neither
triggers a death nor yields xp (exactly-once); the corpse has no AI, so
the monster phase of play_game skips it forever; and through attack the
xp equal to the victim's xp field is credited to the attacker. -/
theorem claim_C2_monster_death_once (o : Object) (f : Fighter) (d : Int) (game : Game)
    (hf : o.fighter = some f) (hmon : f.on_death = DeathCallback.monster)
    (hkill : (if 0 < d then f.hp - d else f.hp) ≤ 0) :
    o.take_damage d game =
      some (monster_corpse o, addMsg game (Message.monsterDead o.name f.xp), some f.xp) ∧
    (monster_corpse o).alive = false ∧
    (∀ (d2 : Int) (g2 : Game),
      (monster_corpse o).take_damage d2 g2 = some (monster_corpse o, g2, none)) ∧
    (monster_corpse o).ai = none ∧
    (∀ (objects : List Object) (id : Nat),
      objects.get? id = some (monster_corpse o) → monster_phase_guard objects id = false) ∧
    (∀ (attacker : Object) (af : Fighter) (g : Game),
      attacker.fighter = some af →
      0 < attacker.power g - o.defense g →
      f.hp - (attacker.power g - o.defense g) ≤ 0 →
      attacker.attack o g =
        some ({ attacker with fighter := some { af with xp := af.xp + f.xp } },
              monster_corpse o,
              addMsg (addMsg g (Message.attackHit attacker.name o.name
                  (attacker.power g - o.defense g)))
                (Message.monsterDead o.name f.xp))) := by
  refine ⟨take_damage_monster_kill o f d game hf hmon hkill, rfl, ?_, rfl, ?_, ?_⟩
  · intro d2 g2
    rfl
  · intro objects id h
    unfold monster_phase_guard
    rw [h]
    rfl
  · intro attacker af g haf hpos hlethal
    unfold Object.attack
    rw [if_pos hpos]
    dsimp only
    rw [take_damage_monster_kill o f (attacker.power g - o.defense g)
      (addMsg g (Message.attackHit attacker.name o.name (attacker.power g - o.defense g)))
      hf hmon (by rw [if_pos hpos]; exact hlethal)]
    rw [haf]

/-- A concrete broo-like monster with 1 hp left. -/
def wWeakBroo : Object :=
  { Object.new 6 6 'b' Color.desaturatedCrimson "Broo" true with
      alive := true,
      fighter := some { base_max_hp := 20, hp := 1, base_defense := 0, base_power := 4,
                        xp := 35, on_death := DeathCallback.monster } }

/-- Witness for C2 (amended) at a concrete lethal hit. -/
theorem claim_C2_monster_death_once_witness :
    wWeakBroo.fighter = some { base_max_hp := 20, hp := 1, base_defense := 0, base_power := 4,
                               xp := 35, on_death := DeathCallback.monster } ∧
    wWeakBroo.take_damage 3 emptyGame =
      some (monster_corpse wWeakBroo,
            addMsg emptyGame (Message.monsterDead wWeakBroo.name 35), some 35) :=
  ⟨rfl, (claim_C2_monster_death_once wWeakBroo _ 3 emptyGame rfl rfl (by decide)).1⟩

/-- A concrete player victim at 3 hp (death callback Player). -/
def c2Victim : Object :=
  { Object.new 2 2 '@' Color.white "player" true with
      alive := true,
      fighter := some { base_max_hp := 100, hp := 3, base_defense := 1, base_power := 2,
                        xp := 100, on_death := DeathCallback.player } }

/-- A concrete broo attacker. -/
def c2Attacker : Object :=
  { Object.new 3 2 'b' Color.desaturatedCrimson "Broo" true with
      alive := true,
      fighter := some { base_max_hp := 20, hp := 20, base_defense := 0, base_power := 4,
                        xp := 35, on_death := DeathCallback.monster } }

/-- Counterexample to C2 as stated (quantifying over every defender with
a fighter): for a victim with the Player death callback the fighter is
not cleared on death, so a second lethal attack triggers the death
transition again ("You died!" appears twice) and awards the victim's xp
to the attacker a second time. The first attack kills (attacker xp
35 + 100 = 135, victim alive = false); attacking the corpse awards
another 100 (xp 235) and emits a second youDied. This is reachable in
play_game: the monster phase tests objects[PLAYER].alive once before the
loop, so a second adjacent monster still attacks in the same phase. -/
theorem claim_C2_counterexample :
    ((c2Attacker.attack c2Victim emptyGame).map (fun r =>
        ((r.1.fighter.map (fun fi => fi.xp)).getD 0, r.2.1.alive, r.2.2.messages)) =
      some (135, false, [Message.attackHit "Broo" "player" 3, Message.youDied])) ∧
    (((c2Attacker.attack c2Victim emptyGame).bind (fun r => r.1.attack r.2.1 r.2.2)).map
        (fun r =>
          ((r.1.fighter.map (fun fi => fi.xp)).getD 0,
           r.2.2.messages.count Message.youDied)) =
      some (235, 2)) := by
  constructor
  · rfl
  · rfl

/-- C9 (amended): a successful pick_item_up on roster index i > 0 removes
the item by swap-removal: when i is not the last index, the entity
previously at the last roster index moves to index i; every other entity
(in particular the player at index 0) keeps its index; the roster shrinks
by one. When i is the last index the roster simply loses its last entry,
so nothing moves to index i. -/
theorem claim_C9_swap_remove_pickup (i : Nat) (game : Game) (objects : List Object)
    (hi : 0 < i) (hlen : i < objects.length) (hroom : game.inventory.length < 26) :
    ∃ (g2 : Game) (objs2 : List Object),
      pick_item_up i game objects = some (g2, objs2) ∧
      objs2.length = objects.length - 1 ∧
      (∀ j : Nat, j ≠ i → j + 1 < objects.length → objs2.get? j = objects.get? j) ∧
      (i + 1 < objects.length → objs2.get? i = objects.get? (objects.length - 1)) ∧
      objs2.get? 0 = objects.get? 0 := by
  have hne : objects ≠ [] := by
    intro h
    rw [h] at hlen
    simp at hlen
  have hlast : objects.length - 1 < objects.length := by omega
  set last := objects.get ⟨objects.length - 1, hlast⟩ with hlastdef
  set objs2 : List Object := (objects.set i last).dropLast with hobjs2
  have hsw : swapRemove objects i = some (objects.get ⟨i, hlen⟩, objs2) := by
    unfold swapRemove
    rw [List.get?_eq_getElem?, List.getElem?_eq_getElem hlen]
    rw [List.getLast?_eq_getElem?, List.getElem?_eq_getElem (by simpa using hlast)]
    rfl
  have hlen2 : objs2.length = objects.length - 1 := by
    rw [hobjs2]
    simp
  have hkeep : ∀ j : Nat, j ≠ i → j + 1 < objects.length → objs2.get? j = objects.get? j := by
    intro j hji hjlt
    rw [hobjs2, List.dropLast_eq_take]
    simp only [List.get?_eq_getElem?, List.getElem?_take, List.length_set]
    rw [if_pos (by omega), List.getElem?_set_ne (by omega)]
  have hswap : i + 1 < objects.length → objs2.get? i = objects.get? (objects.length - 1) := by
    intro hil
    rw [hobjs2, List.dropLast_eq_take]
    simp only [List.get?_eq_getElem?, List.getElem?_take, List.length_set]
    rw [if_pos (by omega), List.getElem?_set_self', List.getElem?_eq_getElem hlen,
      List.getElem?_eq_getElem hlast]
    rfl
  have h0 : objs2.get? 0 = objects.get? 0 := hkeep 0 (by omega) (by omega)
  unfold pick_item_up
  rw [if_neg (by omega)]
  rw [hsw]
  dsimp only
  rcases hE : (objects.get ⟨i, hlen⟩).equipment with _ | e
  · exact ⟨_, objs2, rfl, hlen2, hkeep, hswap, h0⟩
  · simp only [Option.map_some']
    by_cases hq : (get_equipped_in_slot e.slot
        ((addMsg game (Message.pickedUp (objects.get ⟨i, hlen⟩).name)).inventory ++
          [objects.get ⟨i, hlen⟩])).isNone = true
    · exact ⟨_, objs2, by rw [if_pos hq], hlen2, hkeep, hswap, h0⟩
    · exact ⟨_, objs2, by rw [if_neg hq], hlen2, hkeep, hswap, h0⟩

/-- A concrete three-entity roster item at a non-last index. -/
def wRoster : List Object := [wPlayer, wPotion, wWeakBroo]

/-- Witness for C9 (amended) at a concrete roster. -/
theorem claim_C9_swap_remove_pickup_witness :
    (0 : Nat) < 1 ∧ (1 : Nat) < wRoster.length ∧ emptyGame.inventory.length < 26 ∧
    ∃ (g2 : Game) (objs2 : List Object),
      pick_item_up 1 emptyGame wRoster = some (g2, objs2) ∧
      objs2.length = wRoster.length - 1 ∧
      (∀ j : Nat, j ≠ 1 → j + 1 < wRoster.length → objs2.get? j = wRoster.get? j) ∧
      (1 + 1 < wRoster.length → objs2.get? 1 = wRoster.get? (wRoster.length - 1)) ∧
      objs2.get? 0 = wRoster.get? 0 :=
  ⟨by decide, by decide, by decide,
    claim_C9_swap_remove_pickup 1 emptyGame wRoster (by decide) (by decide) (by decide)⟩

/-- Counterexample to C9 as stated: picking up the item at the last
roster index (here i = 1 in a two-entity roster) succeeds, but no entity
moves to index i: the roster just shrinks, so the conjunct "the entity
previously at the last roster index moves to index i" is false there. -/
theorem claim_C9_counterexample :
    (pick_item_up 1 emptyGame [wPlayer, wPotion]).map (fun r => r.2) = some [wPlayer] ∧
    (pick_item_up 1 emptyGame [wPlayer, wPotion]).map (fun r => r.1.inventory) =
      some [wPotion] ∧
    (pick_item_up 1 emptyGame [wPlayer, wPotion]).map (fun r => r.2.get? 1) = some none := by
  refine ⟨rfl, rfl, rfl⟩

/-! ### Equipment-slot invariant (C8) -/

/-- The predicate get_equipped_in_slot searches with, given a name. -/
def equippedInSlot (o : Object) (slot : Slot) : Bool :=
  (o.equipment.map (fun e => e.equipped && decide (e.slot = slot))).getD false

/-- equippedInSlot unfolded. -/
theorem equippedInSlot_true_iff (o : Object) (s : Slot) :
    equippedInSlot o s = true ↔
      ∃ e, o.equipment = some e ∧ e.equipped = true ∧ e.slot = s := by
  unfold equippedInSlot
  cases h : o.equipment with
  | none => simp
  | some e => simp [Bool.and_eq_true]

/-- At most one inventory entry is equipped in any given slot. -/
def at_most_one_equipped (inventory : List Object) : Prop :=
  ∀ (s : Slot) (i j : Nat) (oi oj : Object),
    inventory.get? i = some oi → inventory.get? j = some oj →
    equippedInSlot oi s = true → equippedInSlot oj s = true → i = j

/-- Every equipment-bearing inventory entry is an item; this holds for
every object the game ever constructs and is what makes equip/dequip
effective. -/
def equipment_has_item (inventory : List Object) : Prop :=
  ∀ o ∈ inventory, o.equipment.isSome = true → o.item.isSome = true

/-- get_equipped_in_slot is findIdx? of equippedInSlot. -/
theorem get_equipped_in_slot_eq (slot : Slot) (inventory : List Object) :
    get_equipped_in_slot slot inventory =
      inventory.findIdx? (fun item => equippedInSlot item slot) := rfl

/-- A successful get_equipped_in_slot points at an equipped entry. -/
theorem get_equipped_in_slot_some (slot : Slot) (inventory : List Object) (k : Nat)
    (h : get_equipped_in_slot slot inventory = some k) :
    ∃ o, inventory.get? k = some o ∧ equippedInSlot o slot = true := by
  rw [get_equipped_in_slot_eq] at h
  rcases List.findIdx?_eq_some_iff_getElem.mp h with ⟨hk, hp, _⟩
  exact ⟨inventory[k], by rw [List.get?_eq_getElem?, List.getElem?_eq_getElem hk], hp⟩

/-- A failed get_equipped_in_slot means nothing is equipped in the slot. -/
theorem get_equipped_in_slot_none (slot : Slot) (inventory : List Object)
    (h : get_equipped_in_slot slot inventory = none) :
    ∀ o ∈ inventory, equippedInSlot o slot = false := by
  rw [get_equipped_in_slot_eq] at h
  intro o ho
  have := List.findIdx?_eq_none_iff.mp h o ho
  exact this

/-- Pointwise description of dequip_at. -/
theorem dequip_at_get (game : Game) (c k : Nat) :
    (dequip_at game c).inventory.get? k =
      if k = c then (game.inventory.get? c).map (fun o => (o.dequip game.messages).1)
      else game.inventory.get? k := by
  unfold dequip_at
  rcases h : game.inventory.get? c with _ | o
  · dsimp only
    simp only [Option.map_none']
    split
    · next heq => rw [heq]; exact h
    · rfl
  · dsimp only
    simp only [Option.map_some']
    have hge : game.inventory[c]? = some o := by rw [← List.get?_eq_getElem?]; exact h
    by_cases hk : k = c
    · subst hk
      rw [if_pos rfl, List.get?_eq_getElem?, List.getElem?_set_self', hge]
      rfl
    · rw [if_neg hk, List.get?_eq_getElem?, List.get?_eq_getElem?,
        List.getElem?_set_ne (fun hcc => hk hcc.symm)]

/-- Pointwise description of equip_at. -/
theorem equip_at_get (game : Game) (c k : Nat) :
    (equip_at game c).inventory.get? k =
      if k = c then (game.inventory.get? c).map (fun o => (o.equip game.messages).1)
      else game.inventory.get? k := by
  unfold equip_at
  rcases h : game.inventory.get? c with _ | o
  · dsimp only
    simp only [Option.map_none']
    split
    · next heq => rw [heq]; exact h
    · rfl
  · dsimp only
    simp only [Option.map_some']
    have hge : game.inventory[c]? = some o := by rw [← List.get?_eq_getElem?]; exact h
    by_cases hk : k = c
    · subst hk
      rw [if_pos rfl, List.get?_eq_getElem?, List.getElem?_set_self', hge]
      rfl
    · rw [if_neg hk, List.get?_eq_getElem?, List.get?_eq_getElem?,
        List.getElem?_set_ne (fun hcc => hk hcc.symm)]

/-- dequip_at preserves the inventory length. -/
theorem dequip_at_length (game : Game) (c : Nat) :
    (dequip_at game c).inventory.length = game.inventory.length := by
  unfold dequip_at
  rcases h : game.inventory.get? c with _ | o <;> simp

/-- equip_at preserves the inventory length. -/
theorem equip_at_length (game : Game) (c : Nat) :
    (equip_at game c).inventory.length = game.inventory.length := by
  unfold equip_at
  rcases h : game.inventory.get? c with _ | o <;> simp

/-- Dequipping an equipped proper item clears its equipped flag. -/
theorem dequip_fst_of_equipped (o : Object) (e : Equipment) (msgs : List Message)
    (hit : o.item.isSome = true) (he : o.equipment = some e) (heq : e.equipped = true) :
    (o.dequip msgs).1 = { o with equipment := some { e with equipped := false } } := by
  unfold Object.dequip
  rw [he]
  have hin : o.item.isNone = false := by
    rcases hv : o.item with _ | v
    · rw [hv] at hit
      simp at hit
    · rfl
  rw [if_neg (by simp [hin])]
  dsimp only
  rw [if_pos heq]

/-- Dequip is the identity on the object when it is not equipped. -/
theorem dequip_fst_noop (o : Object) (msgs : List Message)
    (h : ∀ e, o.equipment = some e → e.equipped = false) :
    (o.dequip msgs).1 = o := by
  unfold Object.dequip
  by_cases hit : o.item.isNone = true
  · rw [if_pos hit]
  · rw [if_neg hit]
    rcases he2 : o.equipment with _ | e
    · rfl
    · dsimp only
      rw [if_neg (by simp [h e he2])]

/-- Equipping an unequipped proper item sets its equipped flag. -/
theorem equip_fst_of_unequipped (o : Object) (e : Equipment) (msgs : List Message)
    (hit : o.item.isSome = true) (he : o.equipment = some e) (hne : e.equipped = false) :
    (o.equip msgs).1 = { o with equipment := some { e with equipped := true } } := by
  unfold Object.equip
  have hin : o.item.isNone = false := by
    rcases hv : o.item with _ | v
    · rw [hv] at hit
      simp at hit
    · rfl
  rw [if_neg (by simp [hin])]
  rw [he]
  dsimp only
  rw [if_pos (by simp [hne])]

/-- Marking the equipment unequipped removes the object from every slot. -/
theorem equippedInSlot_set_false (o : Object) (e : Equipment) (s : Slot) :
    equippedInSlot { o with equipment := some { e with equipped := false } } s = false := rfl

/-- Marking the equipment equipped makes the object occupy its slot. -/
theorem equippedInSlot_set_true (o : Object) (e : Equipment) (s : Slot) :
    equippedInSlot { o with equipment := some { e with equipped := true } } s =
      decide (e.slot = s) := rfl

/-- equippedInSlot of an object with the given equipment. -/
theorem equippedInSlot_of_equipment (o : Object) (e : Equipment) (s : Slot)
    (he : o.equipment = some e) :
    equippedInSlot o s = (e.equipped && decide (e.slot = s)) := by
  unfold equippedInSlot
  rw [he]
  rfl


/-- toggle_equipment preserves the at-most-one-equipped-per-slot
invariant. -/
theorem toggle_preserves_at_most_one (game : Game) (id : Nat) (g2 : Game) (u : UseResult)
    (hprop : equipment_has_item game.inventory)
    (hinv : at_most_one_equipped game.inventory)
    (htog : toggle_equipment id game = some (g2, u)) :
    at_most_one_equipped g2.inventory := by
  unfold toggle_equipment at htog
  rcases hid : game.inventory.get? id with _ | obj
  · rw [hid] at htog
    simp at htog
  · rw [hid] at htog
    dsimp only at htog
    rcases hoe : obj.equipment with _ | e
    · rw [hoe] at htog
      simp only [Option.some.injEq, Prod.mk.injEq] at htog
      rw [← htog.1]
      exact hinv
    · rw [hoe] at htog
      dsimp only at htog
      have hobjmem : obj ∈ game.inventory := List.get?_mem hid
      have hobjit : obj.item.isSome = true := hprop obj hobjmem (by rw [hoe]; rfl)
      rcases hc : get_equipped_in_slot e.slot game.inventory with _ | c
      · -- nothing currently equipped in the slot
        have hnone := get_equipped_in_slot_none e.slot game.inventory hc
        rw [hc] at htog
        dsimp only at htog
        have hne : e.equipped = false := by
          have h1 := hnone obj hobjmem
          rw [equippedInSlot_of_equipment obj e e.slot hoe] at h1
          simpa using h1
        rw [if_neg (by simp [hne])] at htog
        simp only [Option.some.injEq, Prod.mk.injEq] at htog
        obtain ⟨hg2, _⟩ := htog
        subst hg2
        intro s i j oi oj hgi hgj hei hej
        rw [equip_at_get] at hgi hgj
        have hev : (obj.equip game.messages).1 =
            { obj with equipment := some { e with equipped := true } } :=
          equip_fst_of_unequipped obj e game.messages hobjit hoe hne
        by_cases hi : i = id <;> by_cases hj : j = id
        · rw [hi, hj]
        · exfalso
          rw [if_pos hi, hid] at hgi
          simp only [Option.map_some', Option.some.injEq, hev] at hgi
          rw [← hgi, equippedInSlot_set_true] at hei
          have hs : e.slot = s := of_decide_eq_true hei
          rw [if_neg hj] at hgj
          have := hnone oj (List.get?_mem hgj)
          rw [hs] at this
          rw [this] at hej
          exact absurd hej (by simp)
        · exfalso
          rw [if_pos hj, hid] at hgj
          simp only [Option.map_some', Option.some.injEq, hev] at hgj
          rw [← hgj, equippedInSlot_set_true] at hej
          have hs : e.slot = s := of_decide_eq_true hej
          rw [if_neg hi] at hgi
          have := hnone oi (List.get?_mem hgi)
          rw [hs] at this
          rw [this] at hei
          exact absurd hei (by simp)
        · rw [if_neg hi] at hgi
          rw [if_neg hj] at hgj
          exact hinv s i j oi oj hgi hgj hei hej
      · -- an occupant c is equipped in the slot
        obtain ⟨oc, hocget, hoceq⟩ := get_equipped_in_slot_some e.slot game.inventory c hc
        rw [hc] at htog
        dsimp only at htog
        obtain ⟨ec, hocE, hocEq, hocSlot⟩ := (equippedInSlot_true_iff oc e.slot).mp hoceq
        have hocmem : oc ∈ game.inventory := List.get?_mem hocget
        have hocit : oc.item.isSome = true := hprop oc hocmem (by rw [hocE]; rfl)
        have hdeq : (oc.dequip game.messages).1 =
            { oc with equipment := some { ec with equipped := false } } :=
          dequip_fst_of_equipped oc ec game.messages hocit hocE hocEq
        by_cases heq : e.equipped = true
        · -- the toggled item is itself the occupant
          have hobjeq : equippedInSlot obj e.slot = true := by
            rw [equippedInSlot_of_equipment obj e e.slot hoe]
            simp [heq]
          have hcid : c = id := hinv e.slot c id oc obj hocget hid hoceq hobjeq
          subst hcid
          have hocobj : oc = obj := by
            rw [hid] at hocget
            exact (Option.some.inj hocget).symm
          rw [if_pos (by simp [heq])] at htog
          simp only [Option.some.injEq, Prod.mk.injEq] at htog
          obtain ⟨hg2, _⟩ := htog
          subst hg2
          intro s i j oi oj hgi hgj hei hej
          rw [dequip_at_get] at hgi hgj
          have hmid : (dequip_at game c).inventory.get? c =
              some { oc with equipment := some { ec with equipped := false } } := by
            rw [dequip_at_get, if_pos rfl, hocget]
            simp [hdeq]
          by_cases hi : i = c
          · exfalso
            rw [if_pos hi, hmid] at hgi
            simp only [Option.map_some', Option.some.injEq] at hgi
            have hnoop : (({ oc with equipment := some { ec with equipped := false } } :
                Object).dequip (dequip_at game c).messages).1 =
                { oc with equipment := some { ec with equipped := false } } := by
              apply dequip_fst_noop
              intro e2 he2
              simp only at he2
              injection he2 with h3
              rw [← h3]
            rw [hnoop] at hgi
            rw [← hgi, equippedInSlot_set_false] at hei
            exact absurd hei (by simp)
          · by_cases hj : j = c
            · exfalso
              rw [if_pos hj, hmid] at hgj
              simp only [Option.map_some', Option.some.injEq] at hgj
              have hnoop : (({ oc with equipment := some { ec with equipped := false } } :
                  Object).dequip (dequip_at game c).messages).1 =
                  { oc with equipment := some { ec with equipped := false } } := by
                apply dequip_fst_noop
                intro e2 he2
                simp only at he2
                injection he2 with h3
                rw [← h3]
              rw [hnoop] at hgj
              rw [← hgj, equippedInSlot_set_false] at hej
              exact absurd hej (by simp)
            · rw [if_neg hi, dequip_at_get, if_neg hi] at hgi
              rw [if_neg hj, dequip_at_get, if_neg hj] at hgj
              exact hinv s i j oi oj hgi hgj hei hej
        · -- the toggled item is a different, unequipped item
          have hne : e.equipped = false := by
            revert heq
            cases e.equipped <;> simp
          have hcid : c ≠ id := by
            intro hcon
            rw [hcon, hid] at hocget
            have : oc = obj := (Option.some.inj hocget).symm
            rw [this, hoe] at hocE
            have : ec = e := Option.some.inj hocE.symm
            rw [this] at hocEq
            rw [hne] at hocEq
            exact absurd hocEq (by simp)
          rw [if_neg (by simp [hne])] at htog
          simp only [Option.some.injEq, Prod.mk.injEq] at htog
          obtain ⟨hg2, _⟩ := htog
          subst hg2
          intro s i j oi oj hgi hgj hei hej
          rw [equip_at_get] at hgi hgj
          have hmidid : (dequip_at game c).inventory.get? id = some obj := by
            rw [dequip_at_get, if_neg (fun h => hcid h.symm)]
            exact hid
          have hev : (obj.equip (dequip_at game c).messages).1 =
              { obj with equipment := some { e with equipped := true } } :=
            equip_fst_of_unequipped obj e (dequip_at game c).messages hobjit hoe hne
          by_cases hi : i = id <;> by_cases hj : j = id
          · rw [hi, hj]
          · exfalso
            rw [if_pos hi, hmidid] at hgi
            simp only [Option.map_some', Option.some.injEq, hev] at hgi
            rw [← hgi, equippedInSlot_set_true] at hei
            have hs : e.slot = s := of_decide_eq_true hei
            rw [if_neg hj, dequip_at_get] at hgj
            by_cases hjc : j = c
            · rw [if_pos hjc, hocget] at hgj
              simp only [Option.map_some', Option.some.injEq, hdeq] at hgj
              rw [← hgj, equippedInSlot_set_false] at hej
              exact absurd hej (by simp)
            · rw [if_neg hjc] at hgj
              rw [← hs] at hej
              have := hinv e.slot j c oj oc hgj hocget hej hoceq
              exact hjc this
          · exfalso
            rw [if_pos hj, hmidid] at hgj
            simp only [Option.map_some', Option.some.injEq, hev] at hgj
            rw [← hgj, equippedInSlot_set_true] at hej
            have hs : e.slot = s := of_decide_eq_true hej
            rw [if_neg hi, dequip_at_get] at hgi
            by_cases hic : i = c
            · rw [if_pos hic, hocget] at hgi
              simp only [Option.map_some', Option.some.injEq, hdeq] at hgi
              rw [← hgi, equippedInSlot_set_false] at hei
              exact absurd hei (by simp)
            · rw [if_neg hic] at hgi
              rw [← hs] at hei
              have := hinv e.slot i c oi oc hgi hocget hei hoceq
              exact hic this
          · rw [if_neg hi, dequip_at_get] at hgi
            rw [if_neg hj, dequip_at_get] at hgj
            by_cases hic : i = c <;> by_cases hjc : j = c
            · rw [hic, hjc]
            · exfalso
              rw [if_pos hic, hocget] at hgi
              simp only [Option.map_some', Option.some.injEq, hdeq] at hgi
              rw [← hgi, equippedInSlot_set_false] at hei
              exact absurd hei (by simp)
            · exfalso
              rw [if_pos hjc, hocget] at hgj
              simp only [Option.map_some', Option.some.injEq, hdeq] at hgj
              rw [← hgj, equippedInSlot_set_false] at hej
              exact absurd hej (by simp)
            · rw [if_neg hic] at hgi
              rw [if_neg hjc] at hgj
              exact hinv s i j oi oj hgi hgj hei hej

/-- Toggling an unequipped proper item equips it, dequips whatever
occupied its slot, and leaves everything else unchanged. -/
theorem toggle_on_unequipped (game : Game) (i : Nat) (oi : Object) (ei : Equipment)
    (hprop : equipment_has_item game.inventory)
    (hinv : at_most_one_equipped game.inventory)
    (hi : game.inventory.get? i = some oi)
    (he : oi.equipment = some ei)
    (hne : ei.equipped = false) :
    ∃ g2, toggle_equipment i game = some (g2, UseResult.usedAndKept) ∧
      g2.inventory.length = game.inventory.length ∧
      g2.inventory.get? i = some { oi with equipment := some { ei with equipped := true } } ∧
      (∀ k ok, k ≠ i → g2.inventory.get? k = some ok →
        equippedInSlot ok ei.slot = false) ∧
      (∀ k ok0, k ≠ i → game.inventory.get? k = some ok0 →
        equippedInSlot ok0 ei.slot = false → g2.inventory.get? k = some ok0) ∧
      equipment_has_item g2.inventory ∧
      at_most_one_equipped g2.inventory := by
  have hmem : oi ∈ game.inventory := List.get?_mem hi
  have hit : oi.item.isSome = true := hprop oi hmem (by rw [he]; rfl)
  rcases hc : get_equipped_in_slot ei.slot game.inventory with _ | c
  · -- slot empty: a plain equip
    have hnone := get_equipped_in_slot_none ei.slot game.inventory hc
    have htog : toggle_equipment i game = some (equip_at game i, UseResult.usedAndKept) := by
      unfold toggle_equipment
      rw [hi]
      dsimp only
      rw [he]
      dsimp only
      rw [hc]
      dsimp only
      rw [if_neg (by simp [hne])]
    refine ⟨equip_at game i, htog, equip_at_length game i, ?_, ?_, ?_, ?_, ?_⟩
    · rw [equip_at_get, if_pos rfl, hi]
      simp [equip_fst_of_unequipped oi ei game.messages hit he hne]
    · intro k ok hk hok
      rw [equip_at_get, if_neg hk] at hok
      exact hnone ok (List.get?_mem hok)
    · intro k ok0 hk hok0 _
      rw [equip_at_get, if_neg hk]
      exact hok0
    · intro o ho
      rcases List.mem_iff_get?.mp ho with ⟨k, hk⟩
      rw [equip_at_get] at hk
      by_cases hki : k = i
      · rw [if_pos hki, hi] at hk
        simp only [Option.map_some', Option.some.injEq,
          equip_fst_of_unequipped oi ei game.messages hit he hne] at hk
        rw [← hk]
        intro _
        exact hit
      · rw [if_neg hki] at hk
        exact hprop o (List.get?_mem hk)
    · exact toggle_preserves_at_most_one game i _ _ hprop hinv htog
  · -- an occupant c gets dequipped first
    obtain ⟨oc, hocget, hoceq⟩ := get_equipped_in_slot_some ei.slot game.inventory c hc
    obtain ⟨ec, hocE, hocEq, hocSlot⟩ := (equippedInSlot_true_iff oc ei.slot).mp hoceq
    have hocit : oc.item.isSome = true :=
      hprop oc (List.get?_mem hocget) (by rw [hocE]; rfl)
    have hdeq : (oc.dequip game.messages).1 =
        { oc with equipment := some { ec with equipped := false } } :=
      dequip_fst_of_equipped oc ec game.messages hocit hocE hocEq
    have hci : c ≠ i := by
      intro hcon
      rw [hcon, hi] at hocget
      have hco : oc = oi := (Option.some.inj hocget).symm
      rw [hco, he] at hocE
      have : ec = ei := Option.some.inj hocE.symm
      rw [this, hne] at hocEq
      exact absurd hocEq (by simp)
    have hmidi : (dequip_at game c).inventory.get? i = some oi := by
      rw [dequip_at_get, if_neg (fun h => hci h.symm)]
      exact hi
    have htog : toggle_equipment i game =
        some (equip_at (dequip_at game c) i, UseResult.usedAndKept) := by
      unfold toggle_equipment
      rw [hi]
      dsimp only
      rw [he]
      dsimp only
      rw [hc]
      dsimp only
      rw [if_neg (by simp [hne])]
    have hev : (oi.equip (dequip_at game c).messages).1 =
        { oi with equipment := some { ei with equipped := true } } :=
      equip_fst_of_unequipped oi ei (dequip_at game c).messages hit he hne
    refine ⟨equip_at (dequip_at game c) i, htog, ?_, ?_, ?_, ?_, ?_, ?_⟩
    · rw [equip_at_length, dequip_at_length]
    · rw [equip_at_get, if_pos rfl, hmidi]
      simp [hev]
    · intro k ok hk hok
      rw [equip_at_get, if_neg hk, dequip_at_get] at hok
      by_cases hkc : k = c
      · rw [if_pos hkc, hocget] at hok
        simp only [Option.map_some', Option.some.injEq, hdeq] at hok
        rw [← hok]
        exact equippedInSlot_set_false oc ec ei.slot
      · rw [if_neg hkc] at hok
        by_contra hcon
        have hok2 : equippedInSlot ok ei.slot = true := by
          revert hcon
          cases equippedInSlot ok ei.slot <;> simp
        exact hkc (hinv ei.slot k c ok oc hok hocget hok2 hoceq)
    · intro k ok0 hk hok0 hfalse
      have hkc : k ≠ c := by
        intro hcon
        rw [hcon, hocget] at hok0
        rw [Option.some.inj hok0] at hoceq
        rw [hoceq] at hfalse
        exact absurd hfalse (by simp)
      rw [equip_at_get, if_neg hk, dequip_at_get, if_neg hkc]
      exact hok0
    · intro o ho
      rcases List.mem_iff_get?.mp ho with ⟨k, hk⟩
      rw [equip_at_get] at hk
      by_cases hki : k = i
      · rw [if_pos hki, hmidi] at hk
        simp only [Option.map_some', Option.some.injEq, hev] at hk
        rw [← hk]
        intro _
        exact hit
      · rw [if_neg hki, dequip_at_get] at hk
        by_cases hkc : k = c
        · rw [if_pos hkc, hocget] at hk
          simp only [Option.map_some', Option.some.injEq, hdeq] at hk
          rw [← hk]
          intro _
          exact hocit
        · rw [if_neg hkc] at hk
          exact hprop o (List.get?_mem hk)
    · exact toggle_preserves_at_most_one game i _ _ hprop hinv htog

/-- C8: at most one inventory item per equipment slot is equipped at any
time: toggle_equipment preserves the at-most-one-equipped-per-slot
invariant (the occupant is auto-dequipped first), and equipping X then Y
on the same slot leaves Y equipped, X not equipped, and exactly one item
equipped in that slot. -/
theorem claim_C8_slot_exclusivity :
    (∀ (game : Game) (id : Nat) (g2 : Game) (u : UseResult),
      equipment_has_item game.inventory → at_most_one_equipped game.inventory →
      toggle_equipment id game = some (g2, u) →
      at_most_one_equipped g2.inventory) ∧
    (∀ (game : Game) (i j : Nat) (oi oj : Object) (ei ej : Equipment),
      equipment_has_item game.inventory → at_most_one_equipped game.inventory →
      i ≠ j →
      game.inventory.get? i = some oi → oi.equipment = some ei → ei.equipped = false →
      game.inventory.get? j = some oj → oj.equipment = some ej → ej.equipped = false →
      ej.slot = ei.slot →
      ∃ (g2 g3 : Game),
        toggle_equipment i game = some (g2, UseResult.usedAndKept) ∧
        toggle_equipment j g2 = some (g3, UseResult.usedAndKept) ∧
        (∃ oj2, g3.inventory.get? j = some oj2 ∧ equippedInSlot oj2 ei.slot = true) ∧
        (∃ oi2, g3.inventory.get? i = some oi2 ∧ equippedInSlot oi2 ei.slot = false) ∧
        (∀ k ok, g3.inventory.get? k = some ok → equippedInSlot ok ei.slot = true →
          k = j)) := by
  constructor
  · intro game id g2 u hprop hinv htog
    exact toggle_preserves_at_most_one game id g2 u hprop hinv htog
  · intro game i j oi oj ei ej hprop hinv hij hi he hne hj hej hejne hss
    obtain ⟨g2, htog1, hlen1, hgi1, hother1, hkeep1, hprop2, hinv2⟩ :=
      toggle_on_unequipped game i oi ei hprop hinv hi he hne
    have hojfalse : equippedInSlot oj ei.slot = false := by
      rw [equippedInSlot_of_equipment oj ej ei.slot hej, hejne]
      rfl
    have hgj2 : g2.inventory.get? j = some oj :=
      hkeep1 j oj (fun h => hij h.symm) hj hojfalse
    obtain ⟨g3, htog2, hlen2, hgj3, hother2, hkeep2, hprop3, hinv3⟩ :=
      toggle_on_unequipped g2 j oj ej hprop2 hinv2 hgj2 hej hejne
    refine ⟨g2, g3, htog1, htog2, ?_, ?_, ?_⟩
    · refine ⟨{ oj with equipment := some { ej with equipped := true } }, hgj3, ?_⟩
      rw [equippedInSlot_set_true, hss]
      simp
    · have hilen : i < g3.inventory.length := by
        rw [hlen2, hlen1]
        rcases List.get?_eq_some.mp hi with ⟨h, _⟩
        exact h
      rcases hgi3 : g3.inventory.get? i with _ | oi2
      · rw [List.get?_eq_getElem?, List.getElem?_eq_none_iff] at hgi3
        omega
      · refine ⟨oi2, rfl, ?_⟩
        have := hother2 i oi2 hij hgi3
        rw [hss] at this
        exact this
    · intro k ok hok hktrue
      by_contra hkj
      have := hother2 k ok hkj hok
      rw [hss] at this
      rw [this] at hktrue
      exact absurd hktrue (by simp)

/-- A concrete unequipped short sword (RightHand). -/
def wShortSword : Object :=
  { Object.new 0 0 '/' Color.sky "short sword" false with
      item := some Item.sword,
      equipment := some { slot := Slot.rightHand, equipped := false, power_bonus := 3,
                          defense_bonus := 0, max_hp_bonus := 0, range := 0, damage := 0,
                          charges := 0 } }

/-- A concrete unequipped broadsword (RightHand). -/
def wBroadsword : Object :=
  { Object.new 0 0 '/' Color.sky "broadsword" false with
      item := some Item.sword,
      equipment := some { slot := Slot.rightHand, equipped := false, power_bonus := 4,
                          defense_bonus := 0, max_hp_bonus := 0, range := 0, damage := 0,
                          charges := 0 } }

/-- A concrete game holding the two swords, neither equipped. -/
def wSwordGame : Game := { emptyGame with inventory := [wShortSword, wBroadsword] }

/-- Witness for C8 at the concrete two-sword inventory. -/
theorem claim_C8_slot_exclusivity_witness :
    equipment_has_item wSwordGame.inventory ∧
    at_most_one_equipped wSwordGame.inventory ∧
    ∃ (g2 g3 : Game),
      toggle_equipment 0 wSwordGame = some (g2, UseResult.usedAndKept) ∧
      toggle_equipment 1 g2 = some (g3, UseResult.usedAndKept) ∧
      (∃ oj2, g3.inventory.get? 1 = some oj2 ∧ equippedInSlot oj2 Slot.rightHand = true) ∧
      (∃ oi2, g3.inventory.get? 0 = some oi2 ∧ equippedInSlot oi2 Slot.rightHand = false) ∧
      (∀ k ok, g3.inventory.get? k = some ok →
        equippedInSlot ok Slot.rightHand = true → k = 1) := by
  have hprop : equipment_has_item wSwordGame.inventory := by
    intro o ho
    simp only [wSwordGame, List.mem_cons, List.not_mem_nil, or_false] at ho
    rcases ho with h | h
    · rw [h]
      intro _
      rfl
    · rw [h]
      intro _
      rfl
  have hinv : at_most_one_equipped wSwordGame.inventory := by
    have hall : ∀ (s : Slot) (k : Nat) (ok : Object),
        wSwordGame.inventory.get? k = some ok → equippedInSlot ok s = false := by
      intro s k ok hk
      match k, hk with
      | 0, hk =>
          rw [← Option.some.inj hk]
          rfl
      | 1, hk =>
          rw [← Option.some.inj hk]
          rfl
    intro s i j oi oj hgi hgj hei hej
    rw [hall s i oi hgi] at hei
    exact absurd hei (by simp)
  refine ⟨hprop, hinv, ?_⟩
  exact claim_C8_slot_exclusivity.2 wSwordGame 0 1 wShortSword wBroadsword
    { slot := Slot.rightHand, equipped := false, power_bonus := 3, defense_bonus := 0,
      max_hp_bonus := 0, range := 0, damage := 0, charges := 0 }
    { slot := Slot.rightHand, equipped := false, power_bonus := 4, defense_bonus := 0,
      max_hp_bonus := 0, range := 0, damage := 0, charges := 0 }
    hprop hinv (by decide) rfl rfl rfl rfl rfl rfl rfl

/-! ### Confusion (C3) -/

/-- List.any is unchanged when one element is replaced by one the
predicate cannot distinguish. -/
theorem any_set_congr {α : Type} (l : List α) (i : Nat) (a b : α) (p : α → Bool)
    (hl : l.get? i = some a) (hab : p b = p a) :
    (l.set i b).any p = l.any p := by
  induction l generalizing i with
  | nil => simp at hl
  | cons x xs ih =>
    cases i with
    | zero =>
        have hx : x = a := Option.some.inj hl
        simp only [List.set, List.any_cons, hab, hx]
    | succ n =>
        simp only [List.get?] at hl
        simp only [List.set, List.any_cons, ih n hl]

/-- is_blocked only looks at blocks and pos, so clearing the AI of a
roster entry (as ai_take_turn's `take()` does) cannot change it. -/
theorem is_blocked_set_ai_none (x y : Int) (m : GameMap) (objects : List Object)
    (id : Nat) (o : Object) (ho : objects.get? id = some o) :
    is_blocked x y m (objects.set id { o with ai := none }) =
      is_blocked x y m objects := by
  unfold is_blocked
  rw [any_set_congr objects id o { o with ai := none }
    (fun object => object.blocks && decide (object.pos = (x, y))) ho rfl]

/-- set_ai at a valid index is a plain list update. -/
theorem set_ai_eq (objects : List Object) (id : Nat) (o : Object) (newAi : AI)
    (ho : objects.get? id = some o) :
    set_ai objects id newAi = objects.set id { o with ai := some newAi } := by
  unfold set_ai
  rw [ho]

/-- C3: a monster whose AI is Confused with previous state P and
turns_remaining N at least 0, on each turn with N positive, steps by the
rng draw (dx, dy) taken from the set -1..1 (the step lands only when the
destination is unblocked, per the shared movement contract) and its AI
becomes Confused(P, N - 1), decrementing by exactly one; when N is 0 the
AI stored back is exactly P, nested parameters included, and the
no-longer-confused message is emitted. Everything else (the other roster
entries, the game state) is untouched. -/
theorem claim_C3_confusion
    (bf : Nat → Game → List Object → Option (List Object × Game × AI))
    (rf : Rat → Nat → Game → List Object → Option (List Object × Game × AI))
    (monster_id : Nat) (game : Game) (objects : List Object)
    (o : Object) (P : AI) (N dx dy : Int)
    (ho : objects.get? monster_id = some o)
    (hai : o.ai = some (AI.confused P N))
    (hN : 0 ≤ N)
    (hdx1 : -1 ≤ dx) (hdx2 : dx < 2) (hdy1 : -1 ≤ dy) (hdy2 : dy < 2) :
    ((dx = -1 ∨ dx = 0 ∨ dx = 1) ∧ (dy = -1 ∨ dy = 0 ∨ dy = 1)) ∧
    (0 < N →
      ai_take_turn bf rf monster_id game objects dx dy =
        some (objects.set monster_id
          { o with
              x := if is_blocked (o.x + dx) (o.y + dy) game.map objects then o.x
                   else o.x + dx,
              y := if is_blocked (o.x + dx) (o.y + dy) game.map objects then o.y
                   else o.y + dy,
              ai := some (AI.confused P (N - 1)) }, game)) ∧
    (N = 0 →
      ai_take_turn bf rf monster_id game objects dx dy =
        some (objects.set monster_id { o with ai := some P },
              addMsg game (Message.noLongerConfused o.name))) := by
  have hlt : monster_id < objects.length := by
    rcases List.get?_eq_some.mp ho with ⟨h, _⟩
    exact h
  have hge : objects[monster_id]? = some o := by
    rw [← List.get?_eq_getElem?]
    exact ho
  have h1 : (objects.set monster_id { o with ai := none }).get? monster_id =
      some { o with ai := none } := by
    rw [List.get?_eq_getElem?, List.getElem?_set_self', hge]
    rfl
  refine ⟨⟨by omega, by omega⟩, ?_, ?_⟩
  · intro hpos
    unfold ai_take_turn
    rw [ho]
    dsimp only
    rw [hai]
    dsimp only
    unfold ai_confused
    rw [if_pos (by omega : N > 0)]
    unfold move_by
    rw [h1]
    dsimp only
    rw [is_blocked_set_ai_none (o.x + dx) (o.y + dy) game.map objects monster_id o ho]
    by_cases hb : is_blocked (o.x + dx) (o.y + dy) game.map objects = true
    · rw [if_neg (by simp [hb]), if_pos hb, if_pos hb]
      dsimp only
      rw [set_ai_eq _ monster_id _ _ h1]
      rw [List.set_set]
    · rw [if_pos (by simp [hb]), if_neg hb, if_neg hb]
      dsimp only
      have h2 : ((objects.set monster_id { o with ai := none }).set monster_id
          (({ o with ai := none } : Object).set_pos (o.x + dx) (o.y + dy))).get? monster_id =
          some (({ o with ai := none } : Object).set_pos (o.x + dx) (o.y + dy)) := by
        rw [List.get?_eq_getElem?, List.getElem?_set_self', List.getElem?_set_self', hge]
        rfl
      rw [set_ai_eq _ monster_id _ _ h2]
      rw [List.set_set, List.set_set]
      rfl
  · intro hz
    unfold ai_take_turn
    rw [ho]
    dsimp only
    rw [hai]
    dsimp only
    unfold ai_confused
    rw [if_neg (by omega : ¬ N > 0)]
    rw [h1]
    dsimp only
    rw [set_ai_eq _ monster_id _ _ h1]
    rw [List.set_set]

/-- An all-floor grid for movement examples. -/
def floorGrid : GameMap := fun _ _ => Tile.empty

/-- A game over the all-floor grid. -/
def wFloorGame : Game :=
  { map := floorGrid, messages := [], inventory := [], dungeon_level := 1 }

/-- A concrete confused broo wrapping a Ranged AI (nested parameter). -/
def wConfusedBroo : Object :=
  { Object.new 7 7 'b' Color.desaturatedCrimson "Broo" true with
      alive := true,
      ai := some (AI.confused (AI.ranged 4) 2),
      fighter := some { base_max_hp := 20, hp := 20, base_defense := 0, base_power := 4,
                        xp := 35, on_death := DeathCallback.monster } }

/-- Dummy stand-ins for the ai_basic / ai_ranged parameters of
ai_take_turn; the confused path never calls them. -/
def bfW : Nat → Game → List Object → Option (List Object × Game × AI) :=
  fun _ _ _ => none

/-- Dummy ranged branch, see bfW. -/
def rfW : Rat → Nat → Game → List Object → Option (List Object × Game × AI) :=
  fun _ _ _ _ => none

/-- Witness for C3: one confused turn of a concrete monster. -/
theorem claim_C3_confusion_witness :
    ([wPlayer, wConfusedBroo].get? 1 = some wConfusedBroo) ∧
    wConfusedBroo.ai = some (AI.confused (AI.ranged 4) 2) ∧
    ai_take_turn bfW rfW 1 wFloorGame [wPlayer, wConfusedBroo] 1 0 =
      some ([wPlayer, wConfusedBroo].set 1
        { wConfusedBroo with
            x := if is_blocked (wConfusedBroo.x + 1) (wConfusedBroo.y + 0) wFloorGame.map
                    [wPlayer, wConfusedBroo] then wConfusedBroo.x
                 else wConfusedBroo.x + 1,
            y := if is_blocked (wConfusedBroo.x + 1) (wConfusedBroo.y + 0) wFloorGame.map
                    [wPlayer, wConfusedBroo] then wConfusedBroo.y
                 else wConfusedBroo.y + 0,
            ai := some (AI.confused (AI.ranged 4) (2 - 1)) }, wFloorGame) :=
  ⟨rfl, rfl,
    (claim_C3_confusion bfW rfW 1 wFloorGame [wPlayer, wConfusedBroo] wConfusedBroo
      (AI.ranged 4) 2 1 0 rfl rfl (by decide) (by decide) (by decide) (by decide)
      (by decide)).2.1 (by decide)⟩

/-! ### Map generation and connectivity (C4) -/

/-- Membership in an integer loop range. -/
theorem mem_intRange {a lo hi : Int} : a ∈ intRange lo hi ↔ lo ≤ a ∧ a < hi := by
  unfold intRange
  constructor
  · intro h
    obtain ⟨i, hir, heq⟩ := List.mem_map.mp h
    have := List.mem_range.mp hir
    simp only [Int.ofNat_eq_natCast] at heq
    omega
  · intro h
    refine List.mem_map.mpr ⟨(a - lo).toNat, List.mem_range.mpr (by omega), ?_⟩
    simp only [Int.ofNat_eq_natCast]
    omega

/-- Pointwise value of a column carve. -/
theorem foldl_setTile_col (ys : List Int) (x : Int) (m : GameMap) (a b : Int) :
    (ys.foldl (fun m y => setTile m x y Tile.empty) m) a b =
      if a = x ∧ b ∈ ys then Tile.empty else m a b := by
  induction ys generalizing m with
  | nil => simp
  | cons y ys ih =>
      rw [List.foldl_cons, ih]
      unfold setTile
      by_cases hax : a = x
      · by_cases hby : b = y
        · simp [hax, hby]
        · by_cases hmem : b ∈ ys <;> simp [hax, hby, hmem]
      · simp [hax]

/-- Pointwise value of a row carve. -/
theorem foldl_setTile_row (xs : List Int) (y : Int) (m : GameMap) (a b : Int) :
    (xs.foldl (fun m x => setTile m x y Tile.empty) m) a b =
      if b = y ∧ a ∈ xs then Tile.empty else m a b := by
  induction xs generalizing m with
  | nil => simp
  | cons x xs ih =>
      rw [List.foldl_cons, ih]
      unfold setTile
      by_cases hby : b = y
      · by_cases hax : a = x
        · simp [hax, hby]
        · by_cases hmem : a ∈ xs <;> simp [hax, hby, hmem]
      · simp [hby]

/-- A cell lies in the interior a room carve makes passable. -/
def inInterior (r : Rect) (p : Int × Int) : Prop :=
  r.x1 + 1 ≤ p.1 ∧ p.1 < r.x2 ∧ r.y1 + 1 ≤ p.2 ∧ p.2 < r.y2

instance (r : Rect) (p : Int × Int) : Decidable (inInterior r p) := by
  unfold inInterior
  infer_instance

/-- Pointwise value of a stack of column carves. -/
theorem foldl_colcarve (xs : List Int) (ylo yhi : Int) (m : GameMap) (a b : Int) :
    (xs.foldl
      (fun m x => (intRange ylo yhi).foldl (fun m y => setTile m x y Tile.empty) m) m) a b =
      if a ∈ xs ∧ ylo ≤ b ∧ b < yhi then Tile.empty else m a b := by
  induction xs generalizing m with
  | nil => simp
  | cons x xs ih =>
      rw [List.foldl_cons, ih, foldl_setTile_col]
      by_cases hax : a = x
      · by_cases hy : ylo ≤ b ∧ b < yhi
        · by_cases hmem : a ∈ xs <;>
            simp [hax, hy, mem_intRange, hy.1, hy.2, hmem]
        · have hby : ¬ b ∈ intRange ylo yhi := by
            rw [mem_intRange]
            omega
          by_cases hmem : a ∈ xs <;> simp [hax, hy, hby, hmem]
      · by_cases hmem : a ∈ xs <;> simp [hax, hmem]

/-- Pointwise value of create_room. -/
theorem create_room_at (r : Rect) (m : GameMap) (a b : Int) :
    (create_room r m) a b = if inInterior r (a, b) then Tile.empty else m a b := by
  unfold create_room
  rw [foldl_colcarve]
  have hiff : (a ∈ intRange (r.x1 + 1) r.x2 ∧ r.y1 + 1 ≤ b ∧ b < r.y2) ↔
      inInterior r (a, b) := by
    rw [mem_intRange]
    unfold inInterior
    dsimp only
    constructor
    · intro h
      exact ⟨h.1.1, h.1.2, h.2.1, h.2.2⟩
    · intro h
      exact ⟨⟨h.1, h.2.1⟩, h.2.2.1, h.2.2.2⟩
  simp only [hiff]

/-- Pointwise value of create_h_tunnel. -/
theorem create_h_tunnel_at (x1 x2 y : Int) (m : GameMap) (a b : Int) :
    (create_h_tunnel x1 x2 y m) a b =
      if min x1 x2 ≤ a ∧ a ≤ max x1 x2 ∧ b = y then Tile.empty else m a b := by
  unfold create_h_tunnel
  rw [foldl_setTile_row]
  have hiff : (b = y ∧ a ∈ intRange (min x1 x2) (max x1 x2 + 1)) ↔
      (min x1 x2 ≤ a ∧ a ≤ max x1 x2 ∧ b = y) := by
    rw [mem_intRange]
    constructor
    · intro h
      exact ⟨h.2.1, by omega, h.1⟩
    · intro h
      exact ⟨h.2.2, h.1, by omega⟩
  simp only [hiff]

/-- Pointwise value of create_v_tunnel. -/
theorem create_v_tunnel_at (y1 y2 x : Int) (m : GameMap) (a b : Int) :
    (create_v_tunnel y1 y2 x m) a b =
      if a = x ∧ min y1 y2 ≤ b ∧ b ≤ max y1 y2 then Tile.empty else m a b := by
  unfold create_v_tunnel
  rw [foldl_setTile_col]
  have hiff : (a = x ∧ b ∈ intRange (min y1 y2) (max y1 y2 + 1)) ↔
      (a = x ∧ min y1 y2 ≤ b ∧ b ≤ max y1 y2) := by
    rw [mem_intRange]
    constructor
    · intro h
      exact ⟨h.1, h.2.1, by omega⟩
    · intro h
      exact ⟨h.1, h.2.1, by omega⟩
  simp only [hiff]

/-- Reachability composes transitively. -/
theorem reachable_trans (m : GameMap) (s p q : Int × Int)
    (h1 : Reachable m s p) (h2 : Reachable m p q) : Reachable m s q := by
  induction h2 with
  | refl _ => exact h1
  | step _ hadj hpass ih => exact Reachable.step ih hadj hpass

/-- Carving more tiles preserves reachability. -/
theorem reachable_mono (m m2 : GameMap) (hsub : ∀ p, passable m p → passable m2 p)
    (s p : Int × Int) (h : Reachable m s p) : Reachable m2 s p := by
  induction h with
  | refl hp => exact Reachable.refl (hsub _ hp)
  | step _ hadj hpass ih => exact Reachable.step ih hadj (hsub _ hpass)

/-- Convenient constructor for adjacency. -/
theorem adjacent_of (p q : Int × Int) (h1 : ¬(p.1 = q.1 ∧ p.2 = q.2))
    (h2 : (q.1 - p.1).natAbs ≤ 1) (h3 : (q.2 - p.2).natAbs ≤ 1) : adjacent p q :=
  ⟨fun hc => h1 (by rw [hc]; exact ⟨rfl, rfl⟩), h2, h3⟩

/-- Any two cells of a fully passable row segment reach each other. -/
theorem reach_horizontal (m : GameMap) (y lo hi : Int)
    (hpass : ∀ x, lo ≤ x → x ≤ hi → passable m (x, y)) :
    ∀ (s t : Int), lo ≤ s → s ≤ hi → lo ≤ t → t ≤ hi → Reachable m (s, y) (t, y) := by
  have main : ∀ (n : Nat) (s t : Int), (t - s).natAbs = n →
      lo ≤ s → s ≤ hi → lo ≤ t → t ≤ hi → Reachable m (s, y) (t, y) := by
    intro n
    induction n with
    | zero =>
        intro s t h0 hs1 hs2 ht1 ht2
        have : s = t := by omega
        rw [← this]
        exact Reachable.refl (hpass s hs1 hs2)
    | succ n ih =>
        intro s t hn hs1 hs2 ht1 ht2
        rcases lt_trichotomy s t with hlt | heq | hgt
        · have hstep : Reachable m (s, y) (s + 1, y) :=
            Reachable.step (Reachable.refl (hpass s hs1 hs2))
              (adjacent_of _ _ (by dsimp only; omega) (by dsimp only; omega)
                (by dsimp only; omega))
              (hpass (s + 1) (by omega) (by omega))
          exact reachable_trans m _ _ _ hstep
            (ih (s + 1) t (by omega) (by omega) (by omega) ht1 ht2)
        · omega
        · have hstep : Reachable m (s, y) (s - 1, y) :=
            Reachable.step (Reachable.refl (hpass s hs1 hs2))
              (adjacent_of _ _ (by dsimp only; omega) (by dsimp only; omega)
                (by dsimp only; omega))
              (hpass (s - 1) (by omega) (by omega))
          exact reachable_trans m _ _ _ hstep
            (ih (s - 1) t (by omega) (by omega) (by omega) ht1 ht2)
  intro s t hs1 hs2 ht1 ht2
  exact main (t - s).natAbs s t rfl hs1 hs2 ht1 ht2

/-- Any two cells of a fully passable column segment reach each other. -/
theorem reach_vertical (m : GameMap) (x lo hi : Int)
    (hpass : ∀ y, lo ≤ y → y ≤ hi → passable m (x, y)) :
    ∀ (s t : Int), lo ≤ s → s ≤ hi → lo ≤ t → t ≤ hi → Reachable m (x, s) (x, t) := by
  have main : ∀ (n : Nat) (s t : Int), (t - s).natAbs = n →
      lo ≤ s → s ≤ hi → lo ≤ t → t ≤ hi → Reachable m (x, s) (x, t) := by
    intro n
    induction n with
    | zero =>
        intro s t h0 hs1 hs2 ht1 ht2
        have : s = t := by omega
        rw [← this]
        exact Reachable.refl (hpass s hs1 hs2)
    | succ n ih =>
        intro s t hn hs1 hs2 ht1 ht2
        rcases lt_trichotomy s t with hlt | heq | hgt
        · have hstep : Reachable m (x, s) (x, s + 1) :=
            Reachable.step (Reachable.refl (hpass s hs1 hs2))
              (adjacent_of _ _ (by dsimp only; omega) (by dsimp only; omega)
                (by dsimp only; omega))
              (hpass (s + 1) (by omega) (by omega))
          exact reachable_trans m _ _ _ hstep
            (ih (s + 1) t (by omega) (by omega) (by omega) ht1 ht2)
        · omega
        · have hstep : Reachable m (x, s) (x, s - 1) :=
            Reachable.step (Reachable.refl (hpass s hs1 hs2))
              (adjacent_of _ _ (by dsimp only; omega) (by dsimp only; omega)
                (by dsimp only; omega))
              (hpass (s - 1) (by omega) (by omega))
          exact reachable_trans m _ _ _ hstep
            (ih (s - 1) t (by omega) (by omega) (by omega) ht1 ht2)
  intro s t hs1 hs2 ht1 ht2
  exact main (t - s).natAbs s t rfl hs1 hs2 ht1 ht2

/-- A fully passable room interior is connected. -/
theorem reach_in_rect (m : GameMap) (r : Rect)
    (hpass : ∀ p, inInterior r p → passable m p)
    (p q : Int × Int) (hp : inInterior r p) (hq : inInterior r q) :
    Reachable m p q := by
  obtain ⟨hpx1, hpx2, hpy1, hpy2⟩ := hp
  obtain ⟨hqx1, hqx2, hqy1, hqy2⟩ := hq
  have h1 : Reachable m (p.1, p.2) (p.1, q.2) :=
    reach_vertical m p.1 (r.y1 + 1) (r.y2 - 1)
      (fun yy hy1 hy2 => hpass (p.1, yy) ⟨hpx1, hpx2, hy1, by omega⟩)
      p.2 q.2 hpy1 (by omega) hqy1 (by omega)
  have h2 : Reachable m (p.1, q.2) (q.1, q.2) :=
    reach_horizontal m q.2 (r.x1 + 1) (r.x2 - 1)
      (fun xx hx1 hx2 => hpass (xx, q.2) ⟨hx1, by omega, hqy1, hqy2⟩)
      p.1 q.1 hpx1 (by omega) hqx1 (by omega)
  exact reachable_trans m _ _ _ h1 h2

/-- The carved center of a generated room is in its interior. -/
theorem center_in_interior (x y w h : Int) (hw : 2 ≤ w) (hh : 2 ≤ h) :
    inInterior (Rect.new x y w h) (Rect.new x y w h).center := by
  unfold Rect.new Rect.center inInterior
  dsimp only
  refine ⟨by omega, by omega, by omega, by omega⟩

/-- Carving a room keeps every passable tile passable. -/
theorem passable_create_room (r : Rect) (m : GameMap) (p : Int × Int)
    (h : passable m p) : passable (create_room r m) p := by
  unfold passable at h ⊢
  rw [create_room_at]
  split
  · rfl
  · exact h

/-- Carving a horizontal tunnel keeps every passable tile passable. -/
theorem passable_h_tunnel (x1 x2 y : Int) (m : GameMap) (p : Int × Int)
    (h : passable m p) : passable (create_h_tunnel x1 x2 y m) p := by
  unfold passable at h ⊢
  rw [create_h_tunnel_at]
  split
  · rfl
  · exact h

/-- Carving a vertical tunnel keeps every passable tile passable. -/
theorem passable_v_tunnel (y1 y2 x : Int) (m : GameMap) (p : Int × Int)
    (h : passable m p) : passable (create_v_tunnel y1 y2 x m) p := by
  unfold passable at h ⊢
  rw [create_v_tunnel_at]
  split
  · rfl
  · exact h

/-- Tiles inside a carved room are passable. -/
theorem passable_in_room (r : Rect) (m : GameMap) (p : Int × Int)
    (h : inInterior r p) : passable (create_room r m) p := by
  unfold passable
  rw [create_room_at, if_pos h]
  rfl

/-- Tiles of a carved horizontal tunnel are passable. -/
theorem passable_in_htunnel (x1 x2 y : Int) (m : GameMap) (p : Int × Int)
    (h : min x1 x2 ≤ p.1 ∧ p.1 ≤ max x1 x2 ∧ p.2 = y) :
    passable (create_h_tunnel x1 x2 y m) p := by
  unfold passable
  rw [create_h_tunnel_at, if_pos h]
  rfl

/-- Tiles of a carved vertical tunnel are passable. -/
theorem passable_in_vtunnel (y1 y2 x : Int) (m : GameMap) (p : Int × Int)
    (h : p.1 = x ∧ min y1 y2 ≤ p.2 ∧ p.2 ≤ max y1 y2) :
    passable (create_v_tunnel y1 y2 x m) p := by
  unfold passable
  rw [create_v_tunnel_at, if_pos h]
  rfl

/-- Invariant carried through the room loop of make_map: with no room
accepted the grid is still all wall; every accepted room's center is
passable; and every passable tile is reachable from the player spawn. -/
def chain_inv (acc : GameMap × List Rect) : Prop :=
  (acc.2 = [] → ∀ a b, acc.1 a b = Tile.wall) ∧
  (∀ r ∈ acc.2, passable acc.1 r.center) ∧
  (∀ p, passable acc.1 p → Reachable acc.1 (player_spawn acc.2) p)

/-- Appending a room does not move the spawn once a room exists. -/
theorem player_spawn_append (l : List Rect) (r : Rect) (h : l ≠ []) :
    player_spawn (l ++ [r]) = player_spawn l := by
  cases l with
  | nil => exact absurd rfl h
  | cons a l => rfl

/-- One accepted or rejected room placement preserves the chain
invariant. -/
theorem make_map_step_inv (acc : GameMap × List Rect) (d : RoomDraw) (hok : d.ok)
    (hI : chain_inv acc) : chain_inv (make_map_step acc d) := by
  obtain ⟨hI0, hI2, hI1⟩ := hI
  obtain ⟨hw1, hw2, hh1, hh2, hx1, hx2, hy1, hy2⟩ := hok
  unfold make_map_step
  dsimp only
  by_cases hfail :
      (acc.2.any (fun other_room => (Rect.new d.x d.y d.w d.h).intersects_with other_room)) = true
  · rw [if_pos hfail]
    exact ⟨hI0, hI2, hI1⟩
  · rw [if_neg hfail]
    rcases hlast : acc.2.getLast? with _ | prev
    · -- first accepted room
      have hrooms : acc.2 = [] := List.getLast?_eq_none_iff.mp hlast
      dsimp only
      have hwall := hI0 hrooms
      have hcent := center_in_interior d.x d.y d.w d.h (by omega) (by omega)
      constructor
      · intro hcon
        rw [hrooms] at hcon
        simp at hcon
      constructor
      · intro r hr
        rw [hrooms] at hr
        simp only [List.nil_append, List.mem_singleton] at hr
        rw [hr]
        exact passable_in_room _ acc.1 _ hcent
      · intro p hp
        dsimp only at hp ⊢
        have hsp : player_spawn (acc.2 ++ [Rect.new d.x d.y d.w d.h]) =
            (Rect.new d.x d.y d.w d.h).center := by
          rw [hrooms]
          rfl
        rw [hsp]
        unfold passable at hp
        rw [create_room_at] at hp
        by_cases hin : inInterior (Rect.new d.x d.y d.w d.h) (p.1, p.2)
        · exact reach_in_rect _ _ (fun q hq => passable_in_room _ acc.1 _ hq) _ _ hcent hin
        · rw [if_neg hin] at hp
          rw [hwall p.1 p.2] at hp
          simp [Tile.wall] at hp
    · -- a later room: carve and tunnel to the previous room's center
      have hne : acc.2 ≠ [] := by
        intro hcon
        rw [hcon] at hlast
        simp at hlast
      have hprevmem : prev ∈ acc.2 := List.mem_of_mem_getLast? hlast
      have hcent := center_in_interior d.x d.y d.w d.h (by omega) (by omega)
      dsimp only
      have hsp : player_spawn (acc.2 ++ [Rect.new d.x d.y d.w d.h]) = player_spawn acc.2 :=
        player_spawn_append acc.2 _ hne
      by_cases hcoin : d.coin = true
      · rw [if_pos hcoin]
        set nr := Rect.new d.x d.y d.w d.h with hnr
        set m1 := create_room nr acc.1 with hm1
        set m2 := create_h_tunnel prev.center.1 nr.center.1 prev.center.2 m1 with hm2
        set m3 := create_v_tunnel prev.center.2 nr.center.2 nr.center.1 m2 with hm3
        have hmono : ∀ p, passable acc.1 p → passable m3 p := fun p hp =>
          passable_v_tunnel _ _ _ _ _ (passable_h_tunnel _ _ _ _ _ (passable_create_room _ _ _ hp))
        have hroompass : ∀ p, inInterior nr p → passable m3 p := fun p hp =>
          passable_v_tunnel _ _ _ _ _ (passable_h_tunnel _ _ _ _ _ (passable_in_room _ _ _ hp))
        have hhtpass : ∀ p, min prev.center.1 nr.center.1 ≤ p.1 ∧
            p.1 ≤ max prev.center.1 nr.center.1 ∧ p.2 = prev.center.2 → passable m3 p :=
          fun p hp => passable_v_tunnel _ _ _ _ _ (passable_in_htunnel _ _ _ _ _ hp)
        have hvtpass : ∀ p, p.1 = nr.center.1 ∧ min prev.center.2 nr.center.2 ≤ p.2 ∧
            p.2 ≤ max prev.center.2 nr.center.2 → passable m3 p :=
          fun p hp => passable_in_vtunnel _ _ _ _ _ hp
        have hreachprev : Reachable m3 (player_spawn acc.2) prev.center :=
          reachable_mono acc.1 m3 hmono _ _ (hI1 prev.center (hI2 prev hprevmem))
        have hreachcorner : Reachable m3 prev.center (nr.center.1, prev.center.2) := by
          have := reach_horizontal m3 prev.center.2
            (min prev.center.1 nr.center.1) (max prev.center.1 nr.center.1)
            (fun x hxa hxb => hhtpass (x, prev.center.2) ⟨hxa, hxb, rfl⟩)
            prev.center.1 nr.center.1 (by omega) (by omega) (by omega) (by omega)
          simpa using this
        have hreachnewc : Reachable m3 prev.center nr.center := by
          refine reachable_trans m3 _ _ _ hreachcorner ?_
          have := reach_vertical m3 nr.center.1
            (min prev.center.2 nr.center.2) (max prev.center.2 nr.center.2)
            (fun y hya hyb => hvtpass (nr.center.1, y) ⟨rfl, hya, hyb⟩)
            prev.center.2 nr.center.2 (by omega) (by omega) (by omega) (by omega)
          simpa using this
        have hreachspawn : Reachable m3 (player_spawn acc.2) nr.center :=
          reachable_trans m3 _ _ _ hreachprev hreachnewc
        constructor
        · intro hcon
          simp at hcon
        constructor
        · intro r hr
          dsimp only
          rw [List.mem_append] at hr
          rcases hr with hr | hr
          · exact hmono _ (hI2 r hr)
          · rw [List.mem_singleton] at hr
            rw [hr]
            exact hroompass _ hcent
        · intro p hp
          dsimp only at hp ⊢
          rw [hsp]
          unfold passable at hp
          rw [hm3, create_v_tunnel_at] at hp
          by_cases hv : p.1 = nr.center.1 ∧ min prev.center.2 nr.center.2 ≤ p.2 ∧
              p.2 ≤ max prev.center.2 nr.center.2
          · refine reachable_trans m3 _ _ _ hreachprev ?_
            refine reachable_trans m3 _ _ _ hreachcorner ?_
            have hr := reach_vertical m3 nr.center.1
              (min prev.center.2 nr.center.2) (max prev.center.2 nr.center.2)
              (fun y hya hyb => hvtpass (nr.center.1, y) ⟨rfl, hya, hyb⟩)
              prev.center.2 p.2 (by omega) (by omega) hv.2.1 hv.2.2
            have hpeq : ((nr.center.1 : Int), p.2) = p := by
              rw [← hv.1]
            rw [hpeq] at hr
            exact hr
          · rw [if_neg hv, hm2, create_h_tunnel_at] at hp
            by_cases hh : min prev.center.1 nr.center.1 ≤ p.1 ∧
                p.1 ≤ max prev.center.1 nr.center.1 ∧ p.2 = prev.center.2
            · refine reachable_trans m3 _ _ _ hreachprev ?_
              have hr := reach_horizontal m3 prev.center.2
                (min prev.center.1 nr.center.1) (max prev.center.1 nr.center.1)
                (fun x hxa hxb => hhtpass (x, prev.center.2) ⟨hxa, hxb, rfl⟩)
                prev.center.1 p.1 (by omega) (by omega) hh.1 hh.2.1
              have hpeq : (p.1, prev.center.2) = p := by
                rw [← hh.2.2]
              rw [hpeq] at hr
              exact hr
            · rw [if_neg hh, hm1, create_room_at] at hp
              by_cases hin : inInterior nr (p.1, p.2)
              · refine reachable_trans m3 _ _ _ hreachspawn ?_
                exact reach_in_rect m3 nr hroompass _ _ hcent hin
              · rw [if_neg hin] at hp
                exact reachable_mono acc.1 m3 hmono _ _ (hI1 p hp)
      · rw [if_neg hcoin]
        set nr := Rect.new d.x d.y d.w d.h with hnr
        set m1 := create_room nr acc.1 with hm1
        set m2 := create_v_tunnel prev.center.2 nr.center.2 prev.center.1 m1 with hm2
        set m3 := create_h_tunnel prev.center.1 nr.center.1 nr.center.2 m2 with hm3
        have hmono : ∀ p, passable acc.1 p → passable m3 p := fun p hp =>
          passable_h_tunnel _ _ _ _ _ (passable_v_tunnel _ _ _ _ _ (passable_create_room _ _ _ hp))
        have hroompass : ∀ p, inInterior nr p → passable m3 p := fun p hp =>
          passable_h_tunnel _ _ _ _ _ (passable_v_tunnel _ _ _ _ _ (passable_in_room _ _ _ hp))
        have hvtpass : ∀ p, p.1 = prev.center.1 ∧ min prev.center.2 nr.center.2 ≤ p.2 ∧
            p.2 ≤ max prev.center.2 nr.center.2 → passable m3 p :=
          fun p hp => passable_h_tunnel _ _ _ _ _ (passable_in_vtunnel _ _ _ _ _ hp)
        have hhtpass : ∀ p, min prev.center.1 nr.center.1 ≤ p.1 ∧
            p.1 ≤ max prev.center.1 nr.center.1 ∧ p.2 = nr.center.2 → passable m3 p :=
          fun p hp => passable_in_htunnel _ _ _ _ _ hp
        have hreachprev : Reachable m3 (player_spawn acc.2) prev.center :=
          reachable_mono acc.1 m3 hmono _ _ (hI1 prev.center (hI2 prev hprevmem))
        have hreachcorner : Reachable m3 prev.center (prev.center.1, nr.center.2) := by
          have := reach_vertical m3 prev.center.1
            (min prev.center.2 nr.center.2) (max prev.center.2 nr.center.2)
            (fun y hya hyb => hvtpass (prev.center.1, y) ⟨rfl, hya, hyb⟩)
            prev.center.2 nr.center.2 (by omega) (by omega) (by omega) (by omega)
          simpa using this
        have hreachnewc : Reachable m3 prev.center nr.center := by
          refine reachable_trans m3 _ _ _ hreachcorner ?_
          have := reach_horizontal m3 nr.center.2
            (min prev.center.1 nr.center.1) (max prev.center.1 nr.center.1)
            (fun x hxa hxb => hhtpass (x, nr.center.2) ⟨hxa, hxb, rfl⟩)
            prev.center.1 nr.center.1 (by omega) (by omega) (by omega) (by omega)
          simpa using this
        have hreachspawn : Reachable m3 (player_spawn acc.2) nr.center :=
          reachable_trans m3 _ _ _ hreachprev hreachnewc
        constructor
        · intro hcon
          simp at hcon
        constructor
        · intro r hr
          dsimp only
          rw [List.mem_append] at hr
          rcases hr with hr | hr
          · exact hmono _ (hI2 r hr)
          · rw [List.mem_singleton] at hr
            rw [hr]
            exact hroompass _ hcent
        · intro p hp
          dsimp only at hp ⊢
          rw [hsp]
          unfold passable at hp
          rw [hm3, create_h_tunnel_at] at hp
          by_cases hh : min prev.center.1 nr.center.1 ≤ p.1 ∧
              p.1 ≤ max prev.center.1 nr.center.1 ∧ p.2 = nr.center.2
          · refine reachable_trans m3 _ _ _ hreachprev ?_
            refine reachable_trans m3 _ _ _ hreachcorner ?_
            have hr := reach_horizontal m3 nr.center.2
              (min prev.center.1 nr.center.1) (max prev.center.1 nr.center.1)
              (fun x hxa hxb => hhtpass (x, nr.center.2) ⟨hxa, hxb, rfl⟩)
              prev.center.1 p.1 (by omega) (by omega) hh.1 hh.2.1
            have hpeq : (p.1, nr.center.2) = p := by
              rw [← hh.2.2]
            rw [hpeq] at hr
            exact hr
          · rw [if_neg hh, hm2, create_v_tunnel_at] at hp
            by_cases hv : p.1 = prev.center.1 ∧ min prev.center.2 nr.center.2 ≤ p.2 ∧
                p.2 ≤ max prev.center.2 nr.center.2
            · refine reachable_trans m3 _ _ _ hreachprev ?_
              have hr := reach_vertical m3 prev.center.1
                (min prev.center.2 nr.center.2) (max prev.center.2 nr.center.2)
                (fun y hya hyb => hvtpass (prev.center.1, y) ⟨rfl, hya, hyb⟩)
                prev.center.2 p.2 (by omega) (by omega) hv.2.1 hv.2.2
              have hpeq : ((prev.center.1 : Int), p.2) = p := by
                rw [← hv.1]
              rw [hpeq] at hr
              exact hr
            · rw [if_neg hv, hm1, create_room_at] at hp
              by_cases hin : inInterior nr (p.1, p.2)
              · refine reachable_trans m3 _ _ _ hreachspawn ?_
                exact reach_in_rect m3 nr hroompass _ _ hcent hin
              · rw [if_neg hin] at hp
                exact reachable_mono acc.1 m3 hmono _ _ (hI1 p hp)

/-- The chain invariant survives the whole room loop. -/
theorem make_map_fold_inv (draws : List RoomDraw) (hok : ∀ d ∈ draws, d.ok)
    (acc : GameMap × List Rect) (hI : chain_inv acc) :
    chain_inv (draws.foldl make_map_step acc) := by
  induction draws generalizing acc with
  | nil => exact hI
  | cons d ds ih =>
      rw [List.foldl_cons]
      exact ih (fun d2 h2 => hok d2 (List.mem_cons_of_mem d h2)) _
        (make_map_step_inv acc d (hok d (List.mem_cons_self d ds)) hI)

/-- The chain invariant holds of the initial all-wall grid. -/
theorem chain_inv_init :
    chain_inv ((fun _ _ => Tile.wall : GameMap), ([] : List Rect)) := by
  refine ⟨fun _ a b => rfl, ?_, ?_⟩
  · intro r hr
    simp at hr
  · intro p hp
    unfold passable at hp
    simp [Tile.wall] at hp

/-- The tile grid produced by the room loop alone, before the fixed
corridor structure is carved on top. -/
def chain_map (draws : List RoomDraw) : GameMap :=
  (draws.foldl make_map_step ((fun _ _ => Tile.wall : GameMap), ([] : List Rect))).1

/-- C4 (amended): every tile carved by the random room chain (the
accepted rooms and the L-tunnels connecting consecutive accepted rooms)
is reachable from the player's spawn point, the first accepted room's
center, through unblocked tiles of the final map. The always-carved
fixed corridor structure, by contrast, need not be reachable from the
spawn (see the counterexample). -/
theorem claim_C4_chain_reachability (draws : List RoomDraw) (hok : ∀ d ∈ draws, d.ok)
    (p : Int × Int) (hp : passable (chain_map draws) p) :
    Reachable (make_map draws).1 (player_spawn (make_map draws).2) p := by
  obtain ⟨_, _, hI1⟩ := make_map_fold_inv draws hok _ chain_inv_init
  have hreach := hI1 p hp
  have hmono : ∀ q, passable (chain_map draws) q → passable (make_map draws).1 q := by
    intro q hq
    show passable (create_h_tunnel 25 55 23 (create_room (Rect.new 50 15 10 15)
      (create_room (Rect.new 20 15 10 15) (chain_map draws)))) q
    exact passable_h_tunnel _ _ _ _ _
      (passable_create_room _ _ _ (passable_create_room _ _ _ hq))
  exact reachable_mono _ _ hmono _ _ hreach

/-- A single in-contract draw for the witness. -/
def wDraws : List RoomDraw := [{ w := 6, h := 6, x := 0, y := 0, coin := false }]

/-- Witness for C4 (amended) at a one-room generation. -/
theorem claim_C4_chain_reachability_witness :
    (∀ d ∈ wDraws, d.ok) ∧ passable (chain_map wDraws) (2, 2) ∧
    Reachable (make_map wDraws).1 (player_spawn (make_map wDraws).2) (2, 2) :=
  ⟨by decide, by decide,
    claim_C4_chain_reachability wDraws (by decide) (2, 2) (by decide)⟩

/-- A full 30-attempt rng trace in which every attempt proposes the same
room at the origin: the first is accepted, all others are rejected as
intersecting, so exactly one room is accepted. -/
def cxDraws : List RoomDraw :=
  List.replicate 30 { w := 6, h := 6, x := 0, y := 0, coin := false }

/-- On the cxDraws trace make_map is one room plus the fixed structure. -/
theorem make_map_cxDraws :
    make_map cxDraws =
      (create_h_tunnel 25 55 23 (create_room (Rect.new 50 15 10 15)
        (create_room (Rect.new 20 15 10 15)
          (create_room (Rect.new 0 0 6 6) (fun _ _ => Tile.wall)))),
       [Rect.new 0 0 6 6]) := rfl

/-- Passable tiles of the cxDraws map lie either in the accepted room
(x < 6) or in the fixed structure (x at least 21). -/
theorem cxDraws_passable_bound (a b : Int)
    (hp : passable (make_map cxDraws).1 (a, b)) : a < 6 ∨ 21 ≤ a := by
  rw [make_map_cxDraws] at hp
  dsimp only at hp
  unfold passable at hp
  rw [create_h_tunnel_at] at hp
  by_cases h1 : min 25 55 ≤ a ∧ a ≤ max 25 55 ∧ b = 23
  · omega
  · rw [if_neg h1, create_room_at] at hp
    by_cases h2 : inInterior (Rect.new 50 15 10 15) (a, b)
    · unfold inInterior Rect.new at h2
      dsimp only at h2
      omega
    · rw [if_neg h2, create_room_at] at hp
      by_cases h3 : inInterior (Rect.new 20 15 10 15) (a, b)
      · unfold inInterior Rect.new at h3
        dsimp only at h3
        omega
      · rw [if_neg h3, create_room_at] at hp
        by_cases h4 : inInterior (Rect.new 0 0 6 6) (a, b)
        · unfold inInterior Rect.new at h4
          dsimp only at h4
          omega
        · rw [if_neg h4] at hp
          simp [Tile.wall] at hp

set_option maxRecDepth 40000 in
/-- Counterexample to C4 as stated: on the cxDraws generation the tile
(22, 17) inside the always-carved fixed room is passable, the spawn is
(3, 3) in the single accepted room, and no path of unblocked tiles
connects them: everything reachable from the spawn keeps x at most 5,
while the whole fixed structure lives at x at least 21. -/
theorem claim_C4_counterexample :
    passable (make_map cxDraws).1 (22, 17) ∧
    player_spawn (make_map cxDraws).2 = (3, 3) ∧
    ¬ Reachable (make_map cxDraws).1 (3, 3) (22, 17) := by
  refine ⟨by decide, by decide, ?_⟩
  intro hreach
  have hinv : ∀ q, Reachable (make_map cxDraws).1 (3, 3) q → q.1 ≤ 5 := by
    intro q h
    induction h with
    | refl _ => decide
    | step hprev hadj hpass ih =>
        obtain ⟨_, hx, _⟩ := hadj
        have hb := cxDraws_passable_bound _ _ hpass
        omega
  have := hinv (22, 17) hreach
  simp at this
